import Mathlib

/-!
# xbarrier / xfence: the barrier-event handlers

A shallow embedding of `handle_barrier_hit`, `handle_barrier_leave` and
`do_action` of `src/xbarrier.c` and `src/xfence.c`.

Conventions of the embedding:

* a C `double` is an exact rational (`ℚ`): rounding, infinities and NaN are
  outside the model;
* `sqrt` only ever occurs in a comparison with a threshold; the comparison is
  decided exactly on the rationals (`sqrt_gt`, `sqrt_lt`) and related to the
  real square root by `sqrt_gt_iff` and `sqrt_lt_iff`;
* whether the distance and speed tests hold at the boundary depends on the
  rounding of the double operations, so `handle_barrier_hit` is embedded a
  second time, as `handle_barrier_hit_double`, with the results of the double
  sum, difference and `sqrt(x * x + y * y)` as arguments; where these are
  exact the two embeddings agree (`handle_barrier_hit_double_of_exact`);
* the file-scope variables `barrier`, `min_speed`, `max_speed`, `distance`
  and `doubletap` are the fields of one record, `Globals`, passed explicitly;
* the clock read by `dnow()` is an argument of the handlers;
* the calls of `do_action` made by a handler are returned as a list, in the
  order they are made; `do_action` turns a call into the requests sent to the
  X server and the lines written to stdout.
-/

namespace XBarrier

/-! ## Data model -/

/-- The C struct `Vector`. -/
structure Vector where
  x : ℚ
  y : ℚ
  deriving DecidableEq, Repr

/-- The file-scope struct `barrier`. -/
structure Barrier where
  xid : Nat
  directions : Int
  pos : Vector
  disp : Vector
  deriving DecidableEq, Repr

/-- The enum `ActionType`; `ACTION_JUMP` exists in `xfence.c` only. -/
inductive ActionType where
  | ACTION_NONE
  | ACTION_RELEASE
  | ACTION_PRINT
  | ACTION_WARP
  | ACTION_JUMP
  deriving DecidableEq, Repr

/-- The union `Action`: the tag, and the members `bar.pos` and `bar.disp`,
which are meaningful for `ACTION_WARP` and `ACTION_JUMP`. -/
structure Action where
  type : ActionType
  bar_pos : Vector
  bar_disp : Vector
  deriving DecidableEq, Repr

/-- The C struct `Condition`, the type of `min_speed` and `max_speed`. -/
structure Condition where
  action : Action
  threshold : ℚ
  deriving DecidableEq, Repr

/-- The file-scope struct `distance`. -/
structure Distance where
  action : Action
  threshold : ℚ
  dx : ℚ
  dy : ℚ
  deriving DecidableEq, Repr

/-- The file-scope struct `doubletap`. -/
structure Doubletap where
  action : Action
  threshold : ℚ
  timestamp_last_entered : ℚ
  timestamp_last_left : ℚ
  deriving DecidableEq, Repr

/-- The mutable file-scope state read and written by the handlers. -/
structure Globals where
  barrier : Barrier
  min_speed : Condition
  max_speed : Condition
  distance : Distance
  doubletap : Doubletap
  deriving DecidableEq, Repr

/-- The fields of `XIBarrierEvent` the handlers use. -/
structure XIBarrierEvent where
  deviceid : Nat
  barrier : Nat
  eventid : Nat
  root_x : ℚ
  root_y : ℚ
  dx : ℚ
  dy : ℚ
  deriving DecidableEq, Repr

/-- The statement of `handle_barrier_hit` that calls `do_action`. -/
inductive CallSite where
  | distance
  | min_speed
  | max_speed
  | doubletap
  deriving DecidableEq, Repr

/-- One call `do_action(&c.action, event)`. -/
structure Call where
  site : CallSite
  action : Action
  event : XIBarrierEvent
  deriving DecidableEq, Repr

/-- What `do_action` sends to the X server or writes to stdout. -/
inductive HostEffect where
  /-- The call `XIBarrierReleasePointer(dpy, deviceid, barrier, eventid)` -/
  | release (deviceid barrier eventid : Nat)
  /-- The call `printf("%.0f %.0f\n", x, y)`: the two values handed to `printf` -/
  | print (x y : ℚ)
  /-- The call `printf("PRINTING!!!\n")` of `xfence.c` -/
  | printing
  /-- The call `XWarpPointer(dpy, None, rootwin, 0, 0, 0, 0, x, y)` -/
  | warp (x y : Int)
  deriving DecidableEq, Repr

/-! ## Macros and library functions -/

/-- Macro `MAX(a,b)` of `sys/param.h`: `(((a)>(b))?(a):(b))`. -/
def MAX {α : Type} [LT α] [DecidableRel (fun a b : α => a < b)] (a b : α) : α :=
  if a > b then a else b

/-- Macro `MIN(a,b)` of `sys/param.h`: `(((a)<(b))?(a):(b))`. -/
def MIN {α : Type} [LT α] [DecidableRel (fun a b : α => a < b)] (a b : α) : α :=
  if a < b then a else b

/-- Macro `SIGNUM(x)`: `(((x) > 0) - ((x) < 0))`, an `int`. -/
def SIGNUM (x : ℚ) : Int :=
  (if x > 0 then 1 else 0) - (if x < 0 then 1 else 0)

/-- Conversion of a `double` to `int`: the fractional part is discarded
(truncation toward zero). The range of `int` is not modelled. -/
def double_to_int (x : ℚ) : Int :=
  if 0 ≤ x then Int.floor x else Int.ceil x

/-- Function `int abs(int)` of `stdlib.h`. Given a `double`, as in `xfence.c`, the
argument is first converted to `int`. -/
def abs (n : Int) : Int :=
  if n < 0 then -n else n

/-- The test `sqrt(s) > t`. -/
def sqrt_gt (s t : ℚ) : Bool :=
  decide (t < 0) || decide (t * t < s)

/-- The test `sqrt(s) < t`. -/
def sqrt_lt (s t : ℚ) : Bool :=
  decide (0 < t) && decide (s < t * t)

/-! ## `do_action` -/

/-- The local `cursor_pos` of the `ACTION_WARP` case. -/
def warp_cursor_pos (barrier : Barrier) (action : Action) (event : XIBarrierEvent) : Vector :=
  let cursor_disp : Vector :=
    { x := event.root_x - barrier.pos.x, y := event.root_y - barrier.pos.y }
  let ratio := (cursor_disp.x + cursor_disp.y) / (barrier.disp.x + barrier.disp.y)
  { x := action.bar_pos.x + ratio * action.bar_disp.x,
    y := action.bar_pos.y + ratio * action.bar_disp.y }

/-- The local `x_disp` of the `ACTION_JUMP` case of `xfence.c`. -/
def jump_x_disp (barrier : Barrier) (action : Action) (event : XIBarrierEvent) : ℚ :=
  let cursor_disp_x := event.root_x - barrier.pos.x
  ((SIGNUM action.bar_disp.x *
    MIN (abs (double_to_int cursor_disp_x)) (abs (double_to_int action.bar_disp.x)) : Int) : ℚ)

/-- The local `y_disp` of the `ACTION_JUMP` case of `xfence.c`. -/
def jump_y_disp (barrier : Barrier) (action : Action) (event : XIBarrierEvent) : ℚ :=
  let cursor_disp_y := event.root_y - barrier.pos.y
  ((SIGNUM action.bar_disp.y *
    MIN (abs (double_to_int cursor_disp_y)) (abs (double_to_int action.bar_disp.y)) : Int) : ℚ)

/-- The local `cursor_pos` of the `ACTION_JUMP` case of `xfence.c`. -/
def jump_cursor_pos (barrier : Barrier) (action : Action) (event : XIBarrierEvent) : Vector :=
  { x := action.bar_pos.x + jump_x_disp barrier action event,
    y := action.bar_pos.y + jump_y_disp barrier action event }

/-- Function `do_action` of `xbarrier.c`. Its `switch` has no `ACTION_JUMP` case. -/
def do_action (barrier : Barrier) (action : Action) (event : XIBarrierEvent) :
    List HostEffect :=
  match action.type with
  | .ACTION_NONE => []
  | .ACTION_RELEASE => [.release event.deviceid event.barrier event.eventid]
  | .ACTION_PRINT => [.print event.root_x event.root_y]
  | .ACTION_WARP =>
    let cursor_pos := warp_cursor_pos barrier action event
    [.warp (double_to_int cursor_pos.x) (double_to_int cursor_pos.y)]
  | .ACTION_JUMP => []

/-- Function `do_action` of `xfence.c`. -/
def xfence_do_action (barrier : Barrier) (action : Action) (event : XIBarrierEvent) :
    List HostEffect :=
  match action.type with
  | .ACTION_NONE => []
  | .ACTION_RELEASE => [.release event.deviceid event.barrier event.eventid]
  | .ACTION_PRINT => [.printing]
  | .ACTION_WARP =>
    let cursor_pos := warp_cursor_pos barrier action event
    [.warp (double_to_int cursor_pos.x) (double_to_int cursor_pos.y)]
  | .ACTION_JUMP =>
    let cursor_pos := jump_cursor_pos barrier action event
    [.warp (double_to_int cursor_pos.x) (double_to_int cursor_pos.y)]

/-! ## `handle_barrier_leave` and `handle_barrier_hit` -/

/-- Function `handle_barrier_leave`; `now` is the value of `dnow()`. The function
does not call `do_action`. -/
def handle_barrier_leave (g : Globals) (_event : XIBarrierEvent) (now : ℚ) : Globals :=
  let g := { g with distance := { g.distance with dx := 0 } }
  let g := { g with distance := { g.distance with dy := 0 } }
  { g with doubletap := { g.doubletap with timestamp_last_left := now } }

/-- The first `if` of `handle_barrier_hit` (lines 186-201 of `xbarrier.c`). -/
def project_vertical (barrier : Barrier) (event : XIBarrierEvent) : XIBarrierEvent :=
  if barrier.disp.x = 0 ∧
      ¬ (barrier.pos.x ≤ event.root_x ∧ event.root_x ≤ barrier.pos.x + barrier.disp.x) then
    let event := { event with root_x := barrier.pos.x }
    let high_y := MAX barrier.pos.y (barrier.pos.y + barrier.disp.y)
    let low_y := MIN barrier.pos.y (barrier.pos.y + barrier.disp.y)
    let event := if event.root_y > high_y then { event with root_y := high_y } else event
    let event := if event.root_y < low_y then { event with root_y := low_y } else event
    event
  else event

/-- The second `if` of `handle_barrier_hit` (lines 202-218 of `xbarrier.c`). -/
def project_horizontal (barrier : Barrier) (event : XIBarrierEvent) : XIBarrierEvent :=
  if barrier.disp.y = 0 ∧
      ¬ (barrier.pos.y ≤ event.root_y ∧ event.root_y ≤ barrier.pos.y + barrier.disp.y) then
    let event := { event with root_y := barrier.pos.y }
    let high_x := MAX barrier.pos.x (barrier.pos.x + barrier.disp.x)
    let low_x := MIN barrier.pos.x (barrier.pos.x + barrier.disp.x)
    let event := if event.root_x > high_x then { event with root_x := high_x } else event
    let event := if event.root_x < low_x then { event with root_x := low_x } else event
    { event with root_y := barrier.pos.y }
  else event

/-- The projection of the cursor onto the barrier at the start of
`handle_barrier_hit`: the two `if` statements, in order. -/
def project_onto_barrier (barrier : Barrier) (event : XIBarrierEvent) : XIBarrierEvent :=
  project_horizontal barrier (project_vertical barrier event)

/-- What one run of `handle_barrier_hit` leaves behind: the globals, the
event (the handler writes `root_x` and `root_y` in place) and the calls of
`do_action`, in order. -/
structure HitResult where
  globals : Globals
  event : XIBarrierEvent
  calls : List Call
  deriving DecidableEq, Repr

/-- Function `handle_barrier_hit`; `now` is the value of `dnow()` read on entry. -/
def handle_barrier_hit (g : Globals) (event : XIBarrierEvent) (now : ℚ) : HitResult :=
  let dx := event.dx
  let dy := event.dy
  let event := project_onto_barrier g.barrier event
  let g := { g with distance := { g.distance with dx := g.distance.dx + event.dx } }
  let g := { g with distance := { g.distance with dy := g.distance.dy + event.dy } }
  let dis_dx := g.distance.dx
  let dis_dy := g.distance.dy
  let calls1 : List Call :=
    if sqrt_gt (dis_dx * dis_dx + dis_dy * dis_dy) g.distance.threshold then
      [⟨.distance, g.distance.action, event⟩]
    else []
  let calls2 : List Call :=
    if sqrt_gt (dx * dx + dy * dy) g.min_speed.threshold then
      [⟨.min_speed, g.min_speed.action, event⟩]
    else []
  let calls3 : List Call :=
    if sqrt_lt (dx * dx + dy * dy) g.max_speed.threshold then
      [⟨.max_speed, g.max_speed.action, event⟩]
    else []
  let calls4 : List Call :=
    if g.doubletap.timestamp_last_entered < g.doubletap.timestamp_last_left ∧
        now - g.doubletap.timestamp_last_entered ≤ g.doubletap.threshold then
      [⟨.doubletap, g.doubletap.action, event⟩]
    else []
  let g := { g with doubletap := { g.doubletap with timestamp_last_entered := now } }
  { globals := g, event := event, calls := calls1 ++ calls2 ++ calls3 ++ calls4 }

/-- Whether the `do_action` call of statement `s` is among `calls`. -/
def applied (s : CallSite) (calls : List Call) : Bool :=
  calls.any (fun c => decide (c.site = s))

/-- The events `handle_xevent` dispatches, with the clock value the handler
reads. -/
inductive BarrierXEvent where
  | XI_BarrierHit (event : XIBarrierEvent) (now : ℚ)
  | XI_BarrierLeave (event : XIBarrierEvent) (now : ℚ)
  deriving DecidableEq, Repr

/-- The dispatch of `handle_xevent`: the globals after the handler and the
calls of `do_action` it made. -/
def handle_xevent (g : Globals) : BarrierXEvent → Globals × List Call
  | .XI_BarrierHit event now =>
    let r := handle_barrier_hit g event now
    (r.globals, r.calls)
  | .XI_BarrierLeave event now => (handle_barrier_leave g event now, [])

/-- The globals after a sequence of events, oldest first. -/
def run (g : Globals) (evs : List BarrierXEvent) : Globals :=
  evs.foldl (fun g e => (handle_xevent g e).1) g

/-- The requests and output of a list of `do_action` calls of `xbarrier.c`. -/
def effects (barrier : Barrier) : List Call → List HostEffect
  | [] => []
  | c :: cs => do_action barrier c.action c.event ++ effects barrier cs

/-! ## Sequences of hits -/

/-- The sum of the `dx` of a sequence of hits. -/
def sum_dx (hs : List (XIBarrierEvent × ℚ)) : ℚ :=
  (hs.map (fun h => h.1.dx)).sum

/-- The sum of the `dy` of a sequence of hits. -/
def sum_dy (hs : List (XIBarrierEvent × ℚ)) : ℚ :=
  (hs.map (fun h => h.1.dy)).sum

/-! ## Predicates used in the statements -/

/-- Exactly one of `disp.x`, `disp.y` is zero. -/
def axis_aligned (disp : Vector) : Prop :=
  (disp.x = 0 ∧ disp.y ≠ 0) ∨ (disp.x ≠ 0 ∧ disp.y = 0)

instance (disp : Vector) : Decidable (axis_aligned disp) := by
  unfold axis_aligned
  infer_instance

/-- The point `(x, y)` lies on the segment from `pos` to `pos + disp`: on
each axis the coordinate is between the two endpoints. On an axis where
`disp` is zero this makes the coordinate equal to that of `pos`. -/
def lies_on (pos disp : Vector) (x y : ℚ) : Prop :=
  (min pos.x (pos.x + disp.x) ≤ x ∧ x ≤ max pos.x (pos.x + disp.x)) ∧
  (min pos.y (pos.y + disp.y) ≤ y ∧ y ≤ max pos.y (pos.y + disp.y))

instance (pos disp : Vector) (x y : ℚ) : Decidable (lies_on pos disp x y) := by
  unfold lies_on
  infer_instance

/-- An action without a target segment. -/
def plain (t : ActionType) : Action :=
  { type := t, bar_pos := ⟨0, 0⟩, bar_disp := ⟨0, 0⟩ }

/-- The value of a condition that was never configured. -/
def unset : Condition :=
  { action := plain .ACTION_NONE, threshold := 0 }

/-- The vertical barrier from `(100, 0)` to `(100, 500)`. -/
def example_barrier : Barrier :=
  { xid := 0, directions := 1, pos := ⟨100, 0⟩, disp := ⟨0, 500⟩ }

/-- The barrier above with `-d 50 release`, before any event. -/
def example_distance : Globals :=
  { barrier := example_barrier
    min_speed := unset
    max_speed := unset
    distance := { action := plain .ACTION_RELEASE, threshold := 50, dx := 0, dy := 0 }
    doubletap :=
      { action := plain .ACTION_NONE, threshold := 0,
        timestamp_last_entered := 0, timestamp_last_left := 0 } }

/-- The barrier above with `-t 0.5 print`, before any event. -/
def example_doubletap : Globals :=
  { barrier := example_barrier
    min_speed := unset
    max_speed := unset
    distance := { action := plain .ACTION_NONE, threshold := 0, dx := 0, dy := 0 }
    doubletap :=
      { action := plain .ACTION_PRINT, threshold := 1 / 2,
        timestamp_last_entered := 0, timestamp_last_left := 0 } }

/-- A hit reported at `(100, 600)`: on the line of `example_barrier`, past
its end `(100, 500)`. -/
def stray : XIBarrierEvent :=
  { deviceid := 2, barrier := 7, eventid := 1, root_x := 100, root_y := 600, dx := 1, dy := 0 }

/-- The action `warp 0 0 1000 0`. -/
def example_warp : Action :=
  { type := .ACTION_WARP, bar_pos := ⟨0, 0⟩, bar_disp := ⟨1000, 0⟩ }

/-- A hit at `(100, 20)` with displacement `(dx, dy)`. -/
def push (dx dy : ℚ) : XIBarrierEvent :=
  { deviceid := 2, barrier := 7, eventid := 1, root_x := 100, root_y := 20, dx := dx, dy := dy }

/-! ## `parse_condition` and `set_options`

`argv` is the list of the program's arguments, `argv[0]` the program name;
`argc` is its length. `strtod` is an argument of the model: `strtod s` is the
value `strtod(s, &end)` returns together with the string left at `end`, so
that `*end` is non-zero exactly when that string is not empty. The element
`argv[argc]` is the null pointer; handing it to `strtod` is recorded as the
failure `null_argument`. -/

/-- The ways `set_options` ends the process instead of returning. -/
inductive Failure where
  /-- Raised by `error("Invalid threshold '%s' (must be numeric and non-negative)")` -/
  | invalid_threshold (arg : String)
  /-- Raised by `error("Invalid coordinates (must be numeric and non-negative)")` -/
  | invalid_coordinates
  /-- Raised by `error("Not enough coordinates provided")` -/
  | not_enough_coordinates
  /-- Raised by `error("Argument '%s' not recognized")` -/
  | not_recognized (arg : String)
  /-- Raised by `error("At least one unobstructed barrier DIRECTION required")` -/
  | no_direction
  /-- Raised by `error("Invalid coordinates (barrier must be one pixel thick)")` -/
  | not_one_pixel_thick
  /-- Raised by `error("Please provide coordinates and directions")` of `xfence.c` -/
  | provide_coordinates
  /-- Raised by `error("Argument '%s' needs to be a valid direction")` of `xfence.c` -/
  | invalid_direction (arg : String)
  /-- The flag `-h`: `usage(stdout, 1); exit(0);` -/
  | usage
  /-- The null pointer `argv[argc]` is handed to `strtod`. -/
  | null_argument
  /-- The loop of the model was given too few steps. -/
  | out_of_fuel
  deriving DecidableEq, Repr

/-- The failures raised through the macro `error`, which prints
`Error: ...` and calls `exit(1)`. -/
def Failure.configuration_error : Failure → Bool
  | .invalid_threshold _ => true
  | .invalid_coordinates => true
  | .not_enough_coordinates => true
  | .not_recognized _ => true
  | .no_direction => true
  | .not_one_pixel_thick => true
  | .provide_coordinates => true
  | .invalid_direction _ => true
  | .usage => false
  | .null_argument => false
  | .out_of_fuel => false

/-- Constant `BarrierPositiveX` of `X11/extensions/xfixeswire.h`: `(1L << 0)`. -/
def BarrierPositiveX : Int := 1

/-- Constant `BarrierPositiveY` of `X11/extensions/xfixeswire.h`: `(1L << 1)`. -/
def BarrierPositiveY : Int := 2

/-- Constant `BarrierNegativeX` of `X11/extensions/xfixeswire.h`: `(1L << 2)`. -/
def BarrierNegativeX : Int := 4

/-- Constant `BarrierNegativeY` of `X11/extensions/xfixeswire.h`: `(1L << 3)`. -/
def BarrierNegativeY : Int := 8

/-- The four `strtod` calls that read the target segment of `warp` (and of
`jump` in `xfence.c`) into `action.bar`, starting at `argv[cur_arg]`; each
call after the first is made only if the one before left `*end` zero, and a
non-zero `*end` at the end is `error("Invalid coordinates ...")`. -/
def read_bar (strtod : String → ℚ × String) (cur_arg : Nat) (argv : List String)
    (condition : Condition) : Except Failure (Nat × Condition) :=
  match argv[cur_arg]? with
  | none => .error .null_argument
  | some a0 =>
    let pos_x := (strtod a0).1
    if (strtod a0).2 ≠ "" then .error .invalid_coordinates
    else
      match argv[cur_arg + 1]? with
      | none => .error .null_argument
      | some a1 =>
        let pos_y := (strtod a1).1
        if (strtod a1).2 ≠ "" then .error .invalid_coordinates
        else
          match argv[cur_arg + 2]? with
          | none => .error .null_argument
          | some a2 =>
            let disp_x := (strtod a2).1 - pos_x
            if (strtod a2).2 ≠ "" then .error .invalid_coordinates
            else
              match argv[cur_arg + 3]? with
              | none => .error .null_argument
              | some a3 =>
                let disp_y := (strtod a3).1 - pos_y
                if (strtod a3).2 ≠ "" then .error .invalid_coordinates
                else
                  .ok (cur_arg + 4,
                    { condition with
                      action :=
                        { condition.action with
                          bar_pos := ⟨pos_x, pos_y⟩, bar_disp := ⟨disp_x, disp_y⟩ } })

/-- Function `parse_condition` of `xbarrier.c`: the index of the next argument and
the condition written through the pointer `condition`. -/
def parse_condition (strtod : String → ℚ × String) (cur_arg : Nat) (argv : List String)
    (condition : Condition) : Except Failure (Nat × Condition) :=
  let condition :=
    { condition with action := { condition.action with type := .ACTION_RELEASE } }
  match argv[cur_arg]? with
  | none => .error .null_argument
  | some a =>
    let condition := { condition with threshold := (strtod a).1 }
    if (strtod a).2 ≠ "" ∨ condition.threshold < 0 then .error (.invalid_threshold a)
    else
      let cur_arg := cur_arg + 1
      if cur_arg ≥ argv.length then .ok (cur_arg, condition)
      else if argv.getD cur_arg "" = "release" then .ok (cur_arg + 1, condition)
      else if argv.getD cur_arg "" = "print" then
        .ok (cur_arg + 1,
          { condition with action := { condition.action with type := .ACTION_PRINT } })
      else if argv.getD cur_arg "" = "warp" then
        read_bar strtod (cur_arg + 1) argv
          { condition with action := { condition.action with type := .ACTION_WARP } }
      else .ok (cur_arg, condition)

/-- Function `parse_condition` of `xfence.c`, which also knows `jump`. -/
def xfence_parse_condition (strtod : String → ℚ × String) (cur_arg : Nat)
    (argv : List String) (condition : Condition) : Except Failure (Nat × Condition) :=
  let condition :=
    { condition with action := { condition.action with type := .ACTION_RELEASE } }
  match argv[cur_arg]? with
  | none => .error .null_argument
  | some a =>
    let condition := { condition with threshold := (strtod a).1 }
    if (strtod a).2 ≠ "" ∨ condition.threshold < 0 then .error (.invalid_threshold a)
    else
      let cur_arg := cur_arg + 1
      if cur_arg ≥ argv.length then .ok (cur_arg, condition)
      else if argv.getD cur_arg "" = "release" then .ok (cur_arg + 1, condition)
      else if argv.getD cur_arg "" = "print" then
        .ok (cur_arg + 1,
          { condition with action := { condition.action with type := .ACTION_PRINT } })
      else if argv.getD cur_arg "" = "warp" then
        read_bar strtod (cur_arg + 1) argv
          { condition with action := { condition.action with type := .ACTION_WARP } }
      else if argv.getD cur_arg "" = "jump" then
        read_bar strtod (cur_arg + 1) argv
          { condition with action := { condition.action with type := .ACTION_JUMP } }
      else .ok (cur_arg, condition)

/-- The locals `coord_arg` and `end` and the global `barrier` while
`set_options` of `xbarrier.c` reads the coordinates of the barrier. -/
structure Coords where
  barrier : Barrier
  rest : String
  coord_arg : Nat
  deriving DecidableEq, Repr

/-- The statement `barrier.pos.x = strtod(argv[coord_arg++], &end);` -/
def coord_pos_x (strtod : String → ℚ × String) (argv : List String) (cur_arg : Nat)
    (barrier : Barrier) : Coords :=
  { barrier := { barrier with pos := { barrier.pos with x := (strtod (argv.getD cur_arg "")).1 } }
    rest := (strtod (argv.getD cur_arg "")).2
    coord_arg := cur_arg + 1 }

/-- The statement `if (!*end && coord_arg < argc) barrier.pos.y = strtod(argv[coord_arg++], &end);` -/
def coord_pos_y (strtod : String → ℚ × String) (argv : List String) (s : Coords) : Coords :=
  if s.rest = "" ∧ s.coord_arg < argv.length then
    { barrier :=
        { s.barrier with
          pos := { s.barrier.pos with y := (strtod (argv.getD s.coord_arg "")).1 } }
      rest := (strtod (argv.getD s.coord_arg "")).2
      coord_arg := s.coord_arg + 1 }
  else s

/-- The statement `if (!*end && coord_arg < argc)
barrier.disp.x = strtod(argv[coord_arg++], &end) - barrier.pos.x;` -/
def coord_disp_x (strtod : String → ℚ × String) (argv : List String) (s : Coords) : Coords :=
  if s.rest = "" ∧ s.coord_arg < argv.length then
    { barrier :=
        { s.barrier with
          disp :=
            { s.barrier.disp with
              x := (strtod (argv.getD s.coord_arg "")).1 - s.barrier.pos.x } }
      rest := (strtod (argv.getD s.coord_arg "")).2
      coord_arg := s.coord_arg + 1 }
  else s

/-- The statement `if (!*end && coord_arg < argc)
barrier.disp.y = strtod(argv[coord_arg++], &end) - barrier.pos.y;` -/
def coord_disp_y (strtod : String → ℚ × String) (argv : List String) (s : Coords) : Coords :=
  if s.rest = "" ∧ s.coord_arg < argv.length then
    { barrier :=
        { s.barrier with
          disp :=
            { s.barrier.disp with
              y := (strtod (argv.getD s.coord_arg "")).1 - s.barrier.pos.y } }
      rest := (strtod (argv.getD s.coord_arg "")).2
      coord_arg := s.coord_arg + 1 }
  else s

/-- A condition as `parse_condition` sees the struct `distance` through the
cast `(Condition *) &distance`. -/
def Distance.condition (d : Distance) : Condition :=
  { action := d.action, threshold := d.threshold }

/-- The struct `distance` after `parse_condition` wrote `c` through the cast. -/
def Distance.store (d : Distance) (c : Condition) : Distance :=
  { d with action := c.action, threshold := c.threshold }

/-- A condition as `parse_condition` sees the struct `doubletap` through the
cast `(Condition *) &doubletap`. -/
def Doubletap.condition (d : Doubletap) : Condition :=
  { action := d.action, threshold := d.threshold }

/-- The struct `doubletap` after `parse_condition` wrote `c` through the cast. -/
def Doubletap.store (d : Doubletap) (c : Condition) : Doubletap :=
  { d with action := c.action, threshold := c.threshold }

/-- The loop `while (cur_arg < argc)` of `set_options` of `xbarrier.c`, with
room for `fuel` iterations. -/
def scan (strtod : String → ℚ × String) (argv : List String) :
    Nat → Nat → Globals → Except Failure Globals
  | 0, cur_arg, g => if cur_arg < argv.length then .error .out_of_fuel else .ok g
  | fuel + 1, cur_arg, g =>
    match argv[cur_arg]? with
    | none => .ok g
    | some a =>
      if a = "-h" then .error .usage
      else if a = "+x" then
        scan strtod argv fuel (cur_arg + 1)
          { g with barrier :=
              { g.barrier with directions := Int.lor g.barrier.directions BarrierPositiveX } }
      else if a = "-x" then
        scan strtod argv fuel (cur_arg + 1)
          { g with barrier :=
              { g.barrier with directions := Int.lor g.barrier.directions BarrierNegativeX } }
      else if a = "+y" then
        scan strtod argv fuel (cur_arg + 1)
          { g with barrier :=
              { g.barrier with directions := Int.lor g.barrier.directions BarrierPositiveY } }
      else if a = "-y" then
        scan strtod argv fuel (cur_arg + 1)
          { g with barrier :=
              { g.barrier with directions := Int.lor g.barrier.directions BarrierNegativeY } }
      else if a = "-d" then
        match parse_condition strtod (cur_arg + 1) argv g.distance.condition with
        | .error f => .error f
        | .ok (n, c) => scan strtod argv fuel n { g with distance := g.distance.store c }
      else if a = "-s" then
        match parse_condition strtod (cur_arg + 1) argv g.max_speed with
        | .error f => .error f
        | .ok (n, c) => scan strtod argv fuel n { g with max_speed := c }
      else if a = "-S" then
        match parse_condition strtod (cur_arg + 1) argv g.min_speed with
        | .error f => .error f
        | .ok (n, c) => scan strtod argv fuel n { g with min_speed := c }
      else if a = "-t" then
        match parse_condition strtod (cur_arg + 1) argv g.doubletap.condition with
        | .error f => .error f
        | .ok (n, c) => scan strtod argv fuel n { g with doubletap := g.doubletap.store c }
      else
        let s := coord_disp_y strtod argv (coord_disp_x strtod argv
          (coord_pos_y strtod argv (coord_pos_x strtod argv cur_arg g.barrier)))
        if s.coord_arg ≠ cur_arg + 4 then .error .not_enough_coordinates
        else if s.rest ≠ "" then .error (.not_recognized (argv.getD (s.coord_arg - 1) ""))
        else scan strtod argv fuel s.coord_arg { g with barrier := s.barrier }

/-- The two tests at the end of `set_options` of `xbarrier.c`. -/
def final_checks (g : Globals) : Except Failure Globals :=
  if g.barrier.directions = 0 then .error .no_direction
  else if g.barrier.disp.x ≠ 0 ∧ g.barrier.disp.y ≠ 0 then .error .not_one_pixel_thick
  else .ok g

/-- Function `set_options` of `xbarrier.c`, run on the globals `g`: the loop starts
at `cur_arg = 1` and every iteration consumes an argument, so `argc`
iterations are enough. -/
def set_options (strtod : String → ℚ × String) (argv : List String) (g : Globals) :
    Except Failure Globals :=
  match scan strtod argv argv.length 1 g with
  | .error f => .error f
  | .ok g => final_checks g

/-- The four `strtod` calls on `argv[1]` to `argv[4]` at the start of
`set_options` of `xfence.c`, made after the test `argc < 6`. -/
def xfence_read_barrier (strtod : String → ℚ × String) (argv : List String)
    (barrier : Barrier) : Except Failure Barrier :=
  let pos_x := (strtod (argv.getD 1 "")).1
  if (strtod (argv.getD 1 "")).2 ≠ "" then .error .invalid_coordinates
  else
    let pos_y := (strtod (argv.getD 2 "")).1
    if (strtod (argv.getD 2 "")).2 ≠ "" then .error .invalid_coordinates
    else
      let disp_x := (strtod (argv.getD 3 "")).1 - pos_x
      if (strtod (argv.getD 3 "")).2 ≠ "" then .error .invalid_coordinates
      else
        let disp_y := (strtod (argv.getD 4 "")).1 - pos_y
        if (strtod (argv.getD 4 "")).2 ≠ "" then .error .invalid_coordinates
        else .ok { barrier with pos := ⟨pos_x, pos_y⟩, disp := ⟨disp_x, disp_y⟩ }

/-- The loop `do ... while (++cur_arg < argc)` of `set_options` of
`xfence.c`, which reads the directions: the index at which it stops and the
globals, with room for `fuel` iterations. -/
def xfence_directions (argv : List String) : Nat → Nat → Globals → Except Failure (Nat × Globals)
  | 0, _, _ => .error .out_of_fuel
  | fuel + 1, cur_arg, g =>
    let continue_with (g : Globals) : Except Failure (Nat × Globals) :=
      if cur_arg + 1 < argv.length then xfence_directions argv fuel (cur_arg + 1) g
      else .ok (cur_arg + 1, g)
    if argv.getD cur_arg "" = "+x" then
      continue_with { g with barrier :=
        { g.barrier with directions := Int.lor g.barrier.directions BarrierPositiveX } }
    else if argv.getD cur_arg "" = "-x" then
      continue_with { g with barrier :=
        { g.barrier with directions := Int.lor g.barrier.directions BarrierNegativeX } }
    else if argv.getD cur_arg "" = "+y" then
      continue_with { g with barrier :=
        { g.barrier with directions := Int.lor g.barrier.directions BarrierPositiveY } }
    else if argv.getD cur_arg "" = "-y" then
      continue_with { g with barrier :=
        { g.barrier with directions := Int.lor g.barrier.directions BarrierNegativeY } }
    else if cur_arg = 5 then .error (.invalid_direction (argv.getD cur_arg ""))
    else .ok (cur_arg, g)

/-- The loop `while (cur_arg < argc)` of `set_options` of `xfence.c`, which
reads the conditions, with room for `fuel` iterations. -/
def xfence_scan (strtod : String → ℚ × String) (argv : List String) :
    Nat → Nat → Globals → Except Failure Globals
  | 0, cur_arg, g => if cur_arg < argv.length then .error .out_of_fuel else .ok g
  | fuel + 1, cur_arg, g =>
    match argv[cur_arg]? with
    | none => .ok g
    | some a =>
      if a = "-h" then .error .usage
      else if a = "-d" then
        match xfence_parse_condition strtod (cur_arg + 1) argv g.distance.condition with
        | .error f => .error f
        | .ok (n, c) => xfence_scan strtod argv fuel n { g with distance := g.distance.store c }
      else if a = "-s" then
        match xfence_parse_condition strtod (cur_arg + 1) argv g.max_speed with
        | .error f => .error f
        | .ok (n, c) => xfence_scan strtod argv fuel n { g with max_speed := c }
      else if a = "-S" then
        match xfence_parse_condition strtod (cur_arg + 1) argv g.min_speed with
        | .error f => .error f
        | .ok (n, c) => xfence_scan strtod argv fuel n { g with min_speed := c }
      else if a = "-t" then
        match xfence_parse_condition strtod (cur_arg + 1) argv g.doubletap.condition with
        | .error f => .error f
        | .ok (n, c) => xfence_scan strtod argv fuel n { g with doubletap := g.doubletap.store c }
      else .error (.not_recognized a)

/-- Function `set_options` of `xfence.c`, run on the globals `g`. After the
coordinates nothing tests the shape of the barrier (the source has the
comment `//TODO: check if barrier is valid line segment` there). -/
def xfence_set_options (strtod : String → ℚ × String) (argv : List String) (g : Globals) :
    Except Failure Globals :=
  if argv.length < 6 then .error .provide_coordinates
  else
    match xfence_read_barrier strtod argv g.barrier with
    | .error f => .error f
    | .ok b =>
      match xfence_directions argv argv.length 5 { g with barrier := b } with
      | .error f => .error f
      | .ok (cur_arg, g) => xfence_scan strtod argv argv.length cur_arg g

/-- The file-scope variables as the C initialisers leave them: every action
is `ACTION_NONE` and every other member is zero. -/
def initial : Globals :=
  { barrier := { xid := 0, directions := 0, pos := ⟨0, 0⟩, disp := ⟨0, 0⟩ }
    min_speed := { action := plain .ACTION_NONE, threshold := 0 }
    max_speed := { action := plain .ACTION_NONE, threshold := 0 }
    distance := { action := plain .ACTION_NONE, threshold := 0, dx := 0, dy := 0 }
    doubletap :=
      { action := plain .ACTION_NONE, threshold := 0,
        timestamp_last_entered := 0, timestamp_last_left := 0 } }

/-- The values of `strtod` on the strings of the examples below: a decimal
number is read whole, `1x` is read up to the `x`, and of any other string
nothing is read (the value is 0 and `end` is the start of the string). -/
def example_strtod (s : String) : ℚ × String :=
  if s = "0" then (0, "")
  else if s = "5" then (5, "")
  else if s = "10" then (10, "")
  else if s = "50" then (50, "")
  else if s = "-1" then (-1, "")
  else if s = "1x" then (1, "x")
  else (0, s)

/-- The action stored in the globals for the statement `s` of
`handle_barrier_hit`. -/
def action_of (g : Globals) : CallSite → Action
  | .distance => g.distance.action
  | .min_speed => g.min_speed.action
  | .max_speed => g.max_speed.action
  | .doubletap => g.doubletap.action

/-- The calls of `do_action` made by the statement `s`. -/
def calls_at (s : CallSite) (calls : List Call) : List Call :=
  calls.filter (fun c => decide (c.site = s))

/-- The requests and output of a list of `do_action` calls of `xfence.c`. -/
def xfence_effects (barrier : Barrier) : List Call → List HostEffect
  | [] => []
  | c :: cs => xfence_do_action barrier c.action c.event ++ xfence_effects barrier cs

/-- The globals of start-up with the diagonal barrier from `(0,0)` to
`(10,10)` and the direction `+x`. -/
def example_diagonal : Globals :=
  { initial with
    barrier := { xid := 0, directions := 1, pos := ⟨0, 0⟩, disp := ⟨10, 10⟩ } }

/-- The globals of start-up with the horizontal barrier from `(0,0)` to
`(10,0)` and the direction `+x`. -/
def example_horizontal : Globals :=
  { initial with
    barrier := { xid := 0, directions := 1, pos := ⟨0, 0⟩, disp := ⟨10, 0⟩ } }

/-- The globals of start-up with the barrier from `(5,5)` to `(5,5)` and
the direction `+x`. -/
def example_point : Globals :=
  { initial with
    barrier := { xid := 0, directions := 1, pos := ⟨5, 5⟩, disp := ⟨0, 0⟩ } }

/-- The offset of `clamp_map` along one axis as the specification words it:
`sign(dst.disp.axis) * min(|off.axis|, |dst.disp.axis|)`, with the absolute
values of the rational numbers themselves. -/
def spec_clamp_offset (off disp : ℚ) : ℚ :=
  (if 0 < disp then 1 else if disp < 0 then -1 else 0) * min |off| |disp|

/-- The clock value read by the handler of an event. -/
def BarrierXEvent.time : BarrierXEvent → ℚ
  | .XI_BarrierHit _ now => now
  | .XI_BarrierLeave _ now => now

/-- The action `jump 0 600 0 100` of `xfence.c`: the target runs from
`(0, 600)` up to `(0, 100)`. -/
def example_jump : Action :=
  { type := .ACTION_JUMP, bar_pos := ⟨0, 600⟩, bar_disp := ⟨0, -500⟩ }

/-- A hit on `example_barrier` at `(100, 20.5)`. -/
def half_pixel : XIBarrierEvent :=
  { deviceid := 2, barrier := 7, eventid := 1, root_x := 100, root_y := 41 / 2, dx := 1, dy := 0 }

/-- A hit reported at `(99, 600)`, off the line of `example_barrier` and past
its end. -/
def off_line : XIBarrierEvent :=
  { deviceid := 2, barrier := 7, eventid := 1, root_x := 99, root_y := 600, dx := 1, dy := 0 }

/-- The barrier `example_barrier` with `-d 0 print` and
`-S 0 warp 0 0 1000 0`, before any event. -/
def example_print_warp : Globals :=
  { barrier := example_barrier
    min_speed := { action := example_warp, threshold := 0 }
    max_speed := unset
    distance := { action := plain .ACTION_PRINT, threshold := 0, dx := 0, dy := 0 }
    doubletap :=
      { action := plain .ACTION_NONE, threshold := 0,
        timestamp_last_entered := 0, timestamp_last_left := 0 } }

/-! ## The handlers in double arithmetic

`handle_barrier_hit` above computes with exact rationals. The C code
computes in `double`: a sum, a difference and `sqrt(x * x + y * y)` are the
nearest doubles, not the exact values. Below, the results of these three
operations are arguments of the model (`DoubleOps`), as `strtod` is for
`set_options`; everything else is as in `handle_barrier_hit`. The doubles
themselves are rationals; infinities and NaN stay outside the model. -/

/-- The double operations of the machine that the handlers use. -/
structure DoubleOps where
  /-- The double `a + b`. -/
  add : ℚ → ℚ → ℚ
  /-- The double `a - b`. -/
  sub : ℚ → ℚ → ℚ
  /-- The double that the expression `sqrt(x * x + y * y)` evaluates to. -/
  norm : ℚ → ℚ → ℚ

/-- At `(x, y)` the machine's `sqrt(x * x + y * y)` is the exact square
root of `x * x + y * y`. -/
def exact_norm (m : DoubleOps) (x y : ℚ) : Prop :=
  0 ≤ m.norm x y ∧ m.norm x y * m.norm x y = x * x + y * y

/-- The first `if` of `handle_barrier_hit` (lines 186-201 of `xbarrier.c`),
in double arithmetic. -/
def project_vertical_double (m : DoubleOps) (barrier : Barrier) (event : XIBarrierEvent) :
    XIBarrierEvent :=
  if barrier.disp.x = 0 ∧
      ¬ (barrier.pos.x ≤ event.root_x ∧
        event.root_x ≤ m.add barrier.pos.x barrier.disp.x) then
    let event := { event with root_x := barrier.pos.x }
    let high_y := MAX barrier.pos.y (m.add barrier.pos.y barrier.disp.y)
    let low_y := MIN barrier.pos.y (m.add barrier.pos.y barrier.disp.y)
    let event := if event.root_y > high_y then { event with root_y := high_y } else event
    let event := if event.root_y < low_y then { event with root_y := low_y } else event
    event
  else event

/-- The second `if` of `handle_barrier_hit` (lines 202-218 of `xbarrier.c`),
in double arithmetic. -/
def project_horizontal_double (m : DoubleOps) (barrier : Barrier) (event : XIBarrierEvent) :
    XIBarrierEvent :=
  if barrier.disp.y = 0 ∧
      ¬ (barrier.pos.y ≤ event.root_y ∧
        event.root_y ≤ m.add barrier.pos.y barrier.disp.y) then
    let event := { event with root_y := barrier.pos.y }
    let high_x := MAX barrier.pos.x (m.add barrier.pos.x barrier.disp.x)
    let low_x := MIN barrier.pos.x (m.add barrier.pos.x barrier.disp.x)
    let event := if event.root_x > high_x then { event with root_x := high_x } else event
    let event := if event.root_x < low_x then { event with root_x := low_x } else event
    { event with root_y := barrier.pos.y }
  else event

/-- Function `handle_barrier_hit` in double arithmetic; `now` is the value
of `dnow()` read on entry. -/
def handle_barrier_hit_double (m : DoubleOps) (g : Globals) (event : XIBarrierEvent)
    (now : ℚ) : HitResult :=
  let dx := event.dx
  let dy := event.dy
  let event := project_horizontal_double m g.barrier (project_vertical_double m g.barrier event)
  let g := { g with distance := { g.distance with dx := m.add g.distance.dx event.dx } }
  let g := { g with distance := { g.distance with dy := m.add g.distance.dy event.dy } }
  let dis_dx := g.distance.dx
  let dis_dy := g.distance.dy
  let euclidian := m.norm dis_dx dis_dy
  let calls1 : List Call :=
    if euclidian > g.distance.threshold then [⟨.distance, g.distance.action, event⟩]
    else []
  let speed := m.norm dx dy
  let calls2 : List Call :=
    if speed > g.min_speed.threshold then [⟨.min_speed, g.min_speed.action, event⟩]
    else []
  let calls3 : List Call :=
    if speed < g.max_speed.threshold then [⟨.max_speed, g.max_speed.action, event⟩]
    else []
  let calls4 : List Call :=
    if g.doubletap.timestamp_last_entered < g.doubletap.timestamp_last_left ∧
        m.sub now g.doubletap.timestamp_last_entered ≤ g.doubletap.threshold then
      [⟨.doubletap, g.doubletap.action, event⟩]
    else []
  let g := { g with doubletap := { g.doubletap with timestamp_last_entered := now } }
  { globals := g, event := event, calls := calls1 ++ calls2 ++ calls3 ++ calls4 }

/-- The globals after a sequence of hits handled in double arithmetic,
oldest first. -/
def run_hits_double (m : DoubleOps) (g : Globals) (hs : List (XIBarrierEvent × ℚ)) : Globals :=
  hs.foldl (fun g h => (handle_barrier_hit_double m g h.1 h.2).globals) g

/-- The accumulator `distance.dx` after the statement `distance.dx +=
event->dx` has run for each hit of `hs` in turn, starting from `a`. -/
def acc_dx (m : DoubleOps) (a : ℚ) (hs : List (XIBarrierEvent × ℚ)) : ℚ :=
  hs.foldl (fun a h => m.add a h.1.dx) a

/-- The accumulator `distance.dy` after the statement `distance.dy +=
event->dy` has run for each hit of `hs` in turn, starting from `a`. -/
def acc_dy (m : DoubleOps) (a : ℚ) (hs : List (XIBarrierEvent × ℚ)) : ℚ :=
  hs.foldl (fun a h => m.add a h.1.dy) a

/-- The values of the double operations at the arguments of the examples
below, as IEEE 754 binary64 arithmetic with rounding to nearest gives them.
The sums and differences of the examples are exact. `sqrt(x * x + y * y)`
is `|x|` when `y` is 0 and `|y|` when `x` is 0; at `(50, 2^-32)` it is 50
and at `(5, 2^-32)` it is 5, because `2500 + 2^-64` and `25 + 2^-64` round to
2500 and 25; at `(1, 1)` it is `6369051672525773 / 2^52`, the double nearest
to the square root of 2, written `1.4142135623730951`; at `(3, 4)` it is 5.
At every other argument the table has 0; the examples do not use it. -/
def ieee_example : DoubleOps :=
  { add := fun a b => a + b
    sub := fun a b => a - b
    norm := fun x y =>
      if y = 0 then |x|
      else if x = 0 then |y|
      else if x = 50 ∧ y = 1 / 2 ^ 32 then 50
      else if x = 5 ∧ y = 1 / 2 ^ 32 then 5
      else if x = 1 ∧ y = 1 then 6369051672525773 / 4503599627370496
      else if x = 3 ∧ y = 4 then 5
      else 0 }

/-- The barrier `example_barrier` with `-S 5 release`, before any event. -/
def example_min_speed : Globals :=
  { barrier := example_barrier
    min_speed := { action := plain .ACTION_RELEASE, threshold := 5 }
    max_speed := unset
    distance := { action := plain .ACTION_NONE, threshold := 0, dx := 0, dy := 0 }
    doubletap :=
      { action := plain .ACTION_NONE, threshold := 0,
        timestamp_last_entered := 0, timestamp_last_left := 0 } }

/-- The barrier `example_barrier` with `-s 1.4142135623730951 release`,
before any event. -/
def example_max_speed : Globals :=
  { barrier := example_barrier
    min_speed := unset
    max_speed :=
      { action := plain .ACTION_RELEASE, threshold := 6369051672525773 / 4503599627370496 }
    distance := { action := plain .ACTION_NONE, threshold := 0, dx := 0, dy := 0 }
    doubletap :=
      { action := plain .ACTION_NONE, threshold := 0,
        timestamp_last_entered := 0, timestamp_last_left := 0 } }

theorem sqrt_gt_iff (s t : ℚ) :
    sqrt_gt s t = true ↔ (t : ℝ) < Real.sqrt (s : ℝ) := by
  unfold sqrt_gt
  simp only [Bool.or_eq_true, decide_eq_true_eq]
  constructor
  · rintro (h | h)
    · have : (t : ℝ) < 0 := by exact_mod_cast h
      exact lt_of_lt_of_le this (Real.sqrt_nonneg _)
    · by_cases ht : 0 ≤ t
      · have ht' : (0 : ℝ) ≤ (t : ℝ) := by exact_mod_cast ht
        rw [Real.lt_sqrt ht']
        have : ((t * t : ℚ) : ℝ) < (s : ℝ) := by exact_mod_cast h
        simpa [sq] using this
      · have : (t : ℝ) < 0 := by exact_mod_cast (not_le.mp ht)
        exact lt_of_lt_of_le this (Real.sqrt_nonneg _)
  · intro h
    by_cases ht : t < 0
    · exact Or.inl ht
    · right
      have ht' : (0 : ℝ) ≤ (t : ℝ) := by exact_mod_cast (not_lt.mp ht)
      rw [Real.lt_sqrt ht'] at h
      have : ((t * t : ℚ) : ℝ) < (s : ℝ) := by simpa [sq] using h
      exact_mod_cast this

theorem sqrt_lt_iff (s t : ℚ) :
    sqrt_lt s t = true ↔ Real.sqrt (s : ℝ) < (t : ℝ) := by
  unfold sqrt_lt
  simp only [Bool.and_eq_true, decide_eq_true_eq]
  constructor
  · rintro ⟨ht, h⟩
    have ht' : (0 : ℝ) < (t : ℝ) := by exact_mod_cast ht
    rw [Real.sqrt_lt' ht']
    have : (s : ℝ) < ((t * t : ℚ) : ℝ) := by exact_mod_cast h
    simpa [sq] using this
  · intro h
    have ht' : (0 : ℝ) < (t : ℝ) := lt_of_le_of_lt (Real.sqrt_nonneg _) h
    refine ⟨by exact_mod_cast ht', ?_⟩
    rw [Real.sqrt_lt' ht'] at h
    have : (s : ℝ) < ((t * t : ℚ) : ℝ) := by simpa [sq] using h
    exact_mod_cast this

/-! ## Basic facts about the handlers -/

theorem project_vertical_dx (b : Barrier) (ev : XIBarrierEvent) :
    (project_vertical b ev).dx = ev.dx ∧ (project_vertical b ev).dy = ev.dy := by
  unfold project_vertical
  dsimp only
  split_ifs <;> exact ⟨rfl, rfl⟩

theorem project_horizontal_dx (b : Barrier) (ev : XIBarrierEvent) :
    (project_horizontal b ev).dx = ev.dx ∧ (project_horizontal b ev).dy = ev.dy := by
  unfold project_horizontal
  dsimp only
  split_ifs <;> exact ⟨rfl, rfl⟩

theorem project_onto_barrier_dx (b : Barrier) (ev : XIBarrierEvent) :
    (project_onto_barrier b ev).dx = ev.dx := by
  unfold project_onto_barrier
  rw [(project_horizontal_dx b _).1, (project_vertical_dx b ev).1]

theorem project_onto_barrier_dy (b : Barrier) (ev : XIBarrierEvent) :
    (project_onto_barrier b ev).dy = ev.dy := by
  unfold project_onto_barrier
  rw [(project_horizontal_dx b _).2, (project_vertical_dx b ev).2]

/-- The globals after `handle_barrier_hit`. -/
theorem handle_barrier_hit_globals (g : Globals) (ev : XIBarrierEvent) (now : ℚ) :
    (handle_barrier_hit g ev now).globals =
      { g with
        distance := { g.distance with
          dx := g.distance.dx + ev.dx, dy := g.distance.dy + ev.dy }
        doubletap := { g.doubletap with timestamp_last_entered := now } } := by
  simp only [handle_barrier_hit, project_onto_barrier_dx, project_onto_barrier_dy]

/-- The calls of `do_action` made by `handle_barrier_hit`. -/
theorem handle_barrier_hit_calls (g : Globals) (ev : XIBarrierEvent) (now : ℚ) :
    (handle_barrier_hit g ev now).calls =
      (if sqrt_gt ((g.distance.dx + ev.dx) * (g.distance.dx + ev.dx) +
            (g.distance.dy + ev.dy) * (g.distance.dy + ev.dy)) g.distance.threshold then
          [⟨.distance, g.distance.action, project_onto_barrier g.barrier ev⟩] else []) ++
      (if sqrt_gt (ev.dx * ev.dx + ev.dy * ev.dy) g.min_speed.threshold then
          [⟨.min_speed, g.min_speed.action, project_onto_barrier g.barrier ev⟩] else []) ++
      (if sqrt_lt (ev.dx * ev.dx + ev.dy * ev.dy) g.max_speed.threshold then
          [⟨.max_speed, g.max_speed.action, project_onto_barrier g.barrier ev⟩] else []) ++
      (if g.doubletap.timestamp_last_entered < g.doubletap.timestamp_last_left ∧
            now - g.doubletap.timestamp_last_entered ≤ g.doubletap.threshold then
          [⟨.doubletap, g.doubletap.action, project_onto_barrier g.barrier ev⟩] else []) := by
  simp only [handle_barrier_hit, project_onto_barrier_dx, project_onto_barrier_dy]

theorem applied_min_speed (g : Globals) (ev : XIBarrierEvent) (now : ℚ) :
    applied .min_speed (handle_barrier_hit g ev now).calls =
      sqrt_gt (ev.dx * ev.dx + ev.dy * ev.dy) g.min_speed.threshold := by
  rw [handle_barrier_hit_calls]
  unfold applied
  split_ifs <;> simp_all

theorem applied_max_speed (g : Globals) (ev : XIBarrierEvent) (now : ℚ) :
    applied .max_speed (handle_barrier_hit g ev now).calls =
      sqrt_lt (ev.dx * ev.dx + ev.dy * ev.dy) g.max_speed.threshold := by
  rw [handle_barrier_hit_calls]
  unfold applied
  split_ifs <;> simp_all

theorem applied_doubletap (g : Globals) (ev : XIBarrierEvent) (now : ℚ) :
    applied .doubletap (handle_barrier_hit g ev now).calls =
      decide (g.doubletap.timestamp_last_entered < g.doubletap.timestamp_last_left ∧
        now - g.doubletap.timestamp_last_entered ≤ g.doubletap.threshold) := by
  rw [handle_barrier_hit_calls]
  unfold applied
  split_ifs <;> simp_all

/-- C2: from any globals, after a hit at `t1` and a leave at `t2 > t1`, a
hit at `t3` applies the double-tap action when `t3 - t1 <= threshold` and
does not when `t3 - t1 > threshold`. (The order of `t2` and `t3` plays no
part.) -/
theorem doubletap_hit_leave_hit (g : Globals) (e1 e2 e3 : XIBarrierEvent) (t1 t2 t3 : ℚ)
    (h12 : t1 < t2) :
    (t3 - t1 ≤ g.doubletap.threshold →
      applied .doubletap (handle_barrier_hit
        (run g [.XI_BarrierHit e1 t1, .XI_BarrierLeave e2 t2]) e3 t3).calls = true) ∧
    (g.doubletap.threshold < t3 - t1 →
      applied .doubletap (handle_barrier_hit
        (run g [.XI_BarrierHit e1 t1, .XI_BarrierLeave e2 t2]) e3 t3).calls = false) := by
  have hrun : run g [.XI_BarrierHit e1 t1, .XI_BarrierLeave e2 t2] =
      handle_barrier_leave (handle_barrier_hit g e1 t1).globals e2 t2 := rfl
  rw [hrun, applied_doubletap, handle_barrier_hit_globals]
  simp only [handle_barrier_leave]
  constructor
  · intro h
    exact decide_eq_true ⟨h12, h⟩
  · intro h
    exact decide_eq_false (fun hc => absurd hc.2 (not_le.mpr h))

/-- C2, the scenario of the specification: threshold 0.5; hit at 0.0, leave
at 0.1 and hit at 0.4 applies the double-tap action; with the last hit at
0.7 it does not. -/
theorem doubletap_hit_leave_hit_witness :
    applied .doubletap (handle_barrier_hit
      (run example_doubletap [.XI_BarrierHit (push 1 0) 0, .XI_BarrierLeave (push 0 0) (1 / 10)])
      (push 1 0) (4 / 10)).calls = true ∧
    applied .doubletap (handle_barrier_hit
      (run example_doubletap [.XI_BarrierHit (push 1 0) 0, .XI_BarrierLeave (push 0 0) (1 / 10)])
      (push 1 0) (7 / 10)).calls = false :=
  ⟨(doubletap_hit_leave_hit example_doubletap (push 1 0) (push 0 0) (push 1 0) 0 (1 / 10) (4 / 10)
      (by norm_num)).1 (by norm_num [example_doubletap]),
   (doubletap_hit_leave_hit example_doubletap (push 1 0) (push 0 0) (push 1 0) 0 (1 / 10) (7 / 10)
      (by norm_num)).2 (by norm_num [example_doubletap])⟩

/-! ## The projection onto the barrier -/

/-- C5, at the failing input: on the vertical barrier from `(100,0)` to
`(100,500)` a hit reported at `(100,600)` is left where it is by the
projection at the start of `handle_barrier_hit`, although `(100,600)` does
not lie on the segment. -/
theorem project_onto_barrier_leaves_stray :
    axis_aligned example_barrier.disp ∧
    project_onto_barrier example_barrier stray = stray ∧
    ¬ lies_on example_barrier.pos example_barrier.disp
      (project_onto_barrier example_barrier stray).root_x
      (project_onto_barrier example_barrier stray).root_y := by
  have h : project_onto_barrier example_barrier stray = stray := by
    simp [project_onto_barrier, project_vertical, project_horizontal, example_barrier, stray]
  refine ⟨?_, h, ?_⟩
  · simp [axis_aligned, example_barrier]
  · rw [h]
    norm_num [lies_on, example_barrier, stray]

/-- C6: an event whose position lies on the barrier segment is left
unchanged by the projection at the start of `handle_barrier_hit`. This
holds for every barrier, axis-aligned or not. -/
theorem project_onto_barrier_of_lies_on (b : Barrier) (event : XIBarrierEvent)
    (h : lies_on b.pos b.disp event.root_x event.root_y) :
    project_onto_barrier b event = event := by
  obtain ⟨⟨hx1, hx2⟩, hy1, hy2⟩ := h
  have hv : project_vertical b event = event := by
    unfold project_vertical
    rw [if_neg]
    rintro ⟨h0, hn⟩
    rw [h0, add_zero] at hx1 hx2 hn
    rw [min_self] at hx1
    rw [max_self] at hx2
    exact hn ⟨hx1, hx2⟩
  have hh : project_horizontal b event = event := by
    unfold project_horizontal
    rw [if_neg]
    rintro ⟨h0, hn⟩
    rw [h0, add_zero] at hy1 hy2 hn
    rw [min_self] at hy1
    rw [max_self] at hy2
    exact hn ⟨hy1, hy2⟩
  unfold project_onto_barrier
  rw [hv, hh]

/-- C6 on the barrier from `(100,0)` to `(100,500)` and a hit at `(100,20)`. -/
theorem project_onto_barrier_of_lies_on_witness :
    lies_on example_barrier.pos example_barrier.disp (push 5 0).root_x (push 5 0).root_y ∧
    project_onto_barrier example_barrier (push 5 0) = push 5 0 :=
  ⟨by norm_num [lies_on, example_barrier, push],
   project_onto_barrier_of_lies_on example_barrier (push 5 0)
    (by norm_num [lies_on, example_barrier, push])⟩

/-! ## The target of `ACTION_WARP` -/

/-- C7: for a barrier with exactly one of `disp.x`, `disp.y` zero, the
`cursor_pos` computed by the `ACTION_WARP` case for an event at
`barrier.pos` is the target's `pos`, and for an event at
`barrier.pos + barrier.disp` it is the target's `pos + disp`. -/
theorem warp_cursor_pos_endpoints (b : Barrier) (a : Action) (event : XIBarrierEvent)
    (hb : axis_aligned b.disp) :
    warp_cursor_pos b a { event with root_x := b.pos.x, root_y := b.pos.y } = a.bar_pos ∧
    warp_cursor_pos b a
        { event with root_x := b.pos.x + b.disp.x, root_y := b.pos.y + b.disp.y } =
      { x := a.bar_pos.x + a.bar_disp.x, y := a.bar_pos.y + a.bar_disp.y } := by
  have hne : b.disp.x + b.disp.y ≠ 0 := by
    rcases hb with ⟨h0, h1⟩ | ⟨h1, h0⟩
    · rw [h0, zero_add]; exact h1
    · rw [h0, add_zero]; exact h1
  constructor
  · simp [warp_cursor_pos]
  · have hr : (b.pos.x + b.disp.x - b.pos.x + (b.pos.y + b.disp.y - b.pos.y)) /
        (b.disp.x + b.disp.y) = 1 := by
      rw [div_eq_one_iff_eq hne]
      ring
    simp only [warp_cursor_pos, hr, one_mul]

/-- C7 on the barrier from `(100,0)` to `(100,500)` and the target from
`(0,0)` to `(1000,0)`. -/
theorem warp_cursor_pos_endpoints_witness :
    axis_aligned example_barrier.disp ∧
    warp_cursor_pos example_barrier example_warp
      { push 5 0 with root_x := 100, root_y := 0 } = ⟨0, 0⟩ ∧
    warp_cursor_pos example_barrier example_warp
      { push 5 0 with root_x := 100, root_y := 500 } = ⟨1000, 0⟩ := by
  have hb : axis_aligned example_barrier.disp := by simp [axis_aligned, example_barrier]
  have h := warp_cursor_pos_endpoints example_barrier example_warp (push 5 0) hb
  refine ⟨hb, ?_, ?_⟩
  · simpa [example_barrier, example_warp] using h.1
  · have h2 := h.2
    norm_num [example_barrier, example_warp] at h2
    exact h2

/-! ## Distance firing along a sequence of hits -/

/-- C10: `handle_barrier_leave` sets the accumulator to `(0,0)` and
`timestamp_last_left` to the current time, and changes nothing else: the
barrier, the four thresholds and actions and `timestamp_last_entered` are
as before. `handle_xevent` records no call of `do_action` for a leave, so
nothing is sent to the X server or printed. -/
theorem handle_barrier_leave_frame (g : Globals) (event : XIBarrierEvent) (now : ℚ) :
    (handle_barrier_leave g event now).distance.dx = 0 ∧
    (handle_barrier_leave g event now).distance.dy = 0 ∧
    (handle_barrier_leave g event now).doubletap.timestamp_last_left = now ∧
    handle_xevent g (.XI_BarrierLeave event now) = (handle_barrier_leave g event now, []) ∧
    effects (handle_barrier_leave g event now).barrier
      (handle_xevent g (.XI_BarrierLeave event now)).2 = [] ∧
    (handle_barrier_leave g event now).barrier = g.barrier ∧
    (handle_barrier_leave g event now).min_speed = g.min_speed ∧
    (handle_barrier_leave g event now).max_speed = g.max_speed ∧
    (handle_barrier_leave g event now).distance.action = g.distance.action ∧
    (handle_barrier_leave g event now).distance.threshold = g.distance.threshold ∧
    (handle_barrier_leave g event now).doubletap.action = g.doubletap.action ∧
    (handle_barrier_leave g event now).doubletap.threshold = g.doubletap.threshold ∧
    (handle_barrier_leave g event now).doubletap.timestamp_last_entered =
      g.doubletap.timestamp_last_entered :=
  ⟨rfl, rfl, rfl, rfl, rfl, rfl, rfl, rfl, rfl, rfl, rfl, rfl, rfl⟩

/-! ## Globals that no handler writes -/

/-- The barrier, the actions and the thresholds are the same before and
after any sequence of events. -/
theorem run_frame (evs : List BarrierXEvent) (g : Globals) :
    (run g evs).barrier = g.barrier ∧
    (run g evs).min_speed = g.min_speed ∧
    (run g evs).max_speed = g.max_speed ∧
    (run g evs).distance.action = g.distance.action ∧
    (run g evs).distance.threshold = g.distance.threshold ∧
    (run g evs).doubletap.action = g.doubletap.action ∧
    (run g evs).doubletap.threshold = g.doubletap.threshold := by
  induction evs generalizing g with
  | nil => simp [run]
  | cons e t ih =>
    have step : run g (e :: t) = run (handle_xevent g e).1 t := by simp [run]
    rw [step]
    obtain ⟨h1, h2, h3, h4, h5, h6, h7⟩ := ih (handle_xevent g e).1
    rw [h1, h2, h3, h4, h5, h6, h7]
    cases e with
    | XI_BarrierHit ev now =>
      simp only [handle_xevent, handle_barrier_hit_globals, and_self]
    | XI_BarrierLeave ev now =>
      simp only [handle_xevent, handle_barrier_leave, and_self]

theorem action_of_run (evs : List BarrierXEvent) (g : Globals) (s : CallSite) :
    action_of (run g evs) s = action_of g s := by
  obtain ⟨-, h2, h3, h4, -, h6, -⟩ := run_frame evs g
  cases s
  · exact h4
  · exact congrArg Condition.action h2
  · exact congrArg Condition.action h3
  · exact h6

/-- Every call made by `handle_barrier_hit` passes the action stored for
its statement. -/
theorem calls_action (g : Globals) (ev : XIBarrierEvent) (now : ℚ) (c : Call)
    (hc : c ∈ (handle_barrier_hit g ev now).calls) : c.action = action_of g c.site := by
  rw [handle_barrier_hit_calls] at hc
  simp only [List.mem_append] at hc
  rcases hc with ((hc | hc) | hc) | hc <;>
    · split_ifs at hc
      · rw [List.mem_singleton] at hc
        rw [hc]
        rfl
      · exact absurd hc (List.not_mem_nil c)

theorem effects_eq_nil (b : Barrier) (cs : List Call)
    (h : ∀ c ∈ cs, c.action.type = .ACTION_NONE) :
    effects b cs = [] ∧ xfence_effects b cs = [] := by
  induction cs with
  | nil => exact ⟨rfl, rfl⟩
  | cons c t ih =>
    have hc := h c (List.mem_cons_self c t)
    obtain ⟨h1, h2⟩ := ih (fun d hd => h d (List.mem_cons_of_mem c hd))
    simp [effects, xfence_effects, do_action, xfence_do_action, hc, h1, h2]

theorem effects_append (b : Barrier) (l1 l2 : List Call) :
    effects b (l1 ++ l2) = effects b l1 ++ effects b l2 := by
  induction l1 with
  | nil => rfl
  | cons c t ih => simp [effects, ih]

/-- A successful `read_bar` leaves the type of the action as it was. -/
theorem read_bar_type (strtod : String → ℚ × String) (k : Nat) (argv : List String)
    (c : Condition) (n : Nat) (c1 : Condition) (h : read_bar strtod k argv c = .ok (n, c1)) :
    c1.action.type = c.action.type ∧ c1.threshold = c.threshold ∧ n = k + 4 := by
  unfold read_bar at h
  split at h
  · exact absurd h (by simp)
  · split_ifs at h
    split at h
    · exact absurd h (by simp)
    · split_ifs at h
      split at h
      · exact absurd h (by simp)
      · split_ifs at h
        split at h
        · exact absurd h (by simp)
        · split_ifs at h
          simp only [Except.ok.injEq, Prod.mk.injEq] at h
          obtain ⟨hn, hc⟩ := h
          subst hc
          exact ⟨rfl, rfl, hn.symm⟩

/-! ## Facts about `parse_condition` -/

theorem parse_condition_invalid (strtod : String → ℚ × String) (k : Nat) (argv : List String)
    (c : Condition) (a : String) (ha : argv[k]? = some a)
    (hbad : (strtod a).2 ≠ "" ∨ (strtod a).1 < 0) :
    parse_condition strtod k argv c = .error (.invalid_threshold a) := by
  unfold parse_condition
  simp only [ha]
  rw [if_pos hbad]

/-- What a successful `parse_condition` returns. -/
theorem parse_condition_ok (strtod : String → ℚ × String) (k : Nat) (argv : List String)
    (c : Condition) (n : Nat) (c1 : Condition)
    (h : parse_condition strtod k argv c = .ok (n, c1)) :
    0 ≤ c1.threshold ∧ c1.action.type ≠ .ACTION_NONE ∧ k < n := by
  unfold parse_condition at h
  split at h
  · exact absurd h (by simp)
  · rename_i a ha
    dsimp only at h
    split_ifs at h with hbad h1 h2 h3 h4
    · simp only [Except.ok.injEq, Prod.mk.injEq] at h
      obtain ⟨hn, hc⟩ := h
      subst hc
      exact ⟨not_lt.mp (fun hlt => hbad (Or.inr hlt)), by simp, by omega⟩
    · simp only [Except.ok.injEq, Prod.mk.injEq] at h
      obtain ⟨hn, hc⟩ := h
      subst hc
      exact ⟨not_lt.mp (fun hlt => hbad (Or.inr hlt)), by simp, by omega⟩
    · simp only [Except.ok.injEq, Prod.mk.injEq] at h
      obtain ⟨hn, hc⟩ := h
      subst hc
      exact ⟨not_lt.mp (fun hlt => hbad (Or.inr hlt)), by simp, by omega⟩
    · obtain ⟨ht, hthr, hn⟩ := read_bar_type strtod _ argv _ n c1 h
      rw [ht, hthr]
      exact ⟨not_lt.mp (fun hlt => hbad (Or.inr hlt)), by simp, by omega⟩
    · simp only [Except.ok.injEq, Prod.mk.injEq] at h
      obtain ⟨hn, hc⟩ := h
      subst hc
      exact ⟨not_lt.mp (fun hlt => hbad (Or.inr hlt)), by simp, by omega⟩

/-- A valid threshold followed by no action keyword of `xbarrier.c`. -/
theorem parse_condition_default (strtod : String → ℚ × String) (k : Nat) (argv : List String)
    (c : Condition) (a : String) (ha : argv[k]? = some a)
    (hnum : (strtod a).2 = "") (hpos : 0 ≤ (strtod a).1)
    (hnext : argv.length ≤ k + 1 ∨
      (argv.getD (k + 1) "" ≠ "release" ∧ argv.getD (k + 1) "" ≠ "print" ∧
        argv.getD (k + 1) "" ≠ "warp")) :
    parse_condition strtod k argv c =
      .ok (k + 1, { action := { c.action with type := .ACTION_RELEASE },
                    threshold := (strtod a).1 }) := by
  unfold parse_condition
  simp only [ha]
  rw [if_neg (by rintro (h | h); exact h hnum; exact absurd hpos (not_le.mpr h))]
  rcases hnext with hlen | ⟨h1, h2, h3⟩
  · rw [if_pos hlen]
  · split_ifs <;> rfl

/-- A valid threshold followed by no action keyword of `xfence.c`. -/
theorem xfence_parse_condition_default (strtod : String → ℚ × String) (k : Nat)
    (argv : List String) (c : Condition) (a : String) (ha : argv[k]? = some a)
    (hnum : (strtod a).2 = "") (hpos : 0 ≤ (strtod a).1)
    (hnext : argv.length ≤ k + 1 ∨
      (argv.getD (k + 1) "" ≠ "release" ∧ argv.getD (k + 1) "" ≠ "print" ∧
        argv.getD (k + 1) "" ≠ "warp" ∧ argv.getD (k + 1) "" ≠ "jump")) :
    xfence_parse_condition strtod k argv c =
      .ok (k + 1, { action := { c.action with type := .ACTION_RELEASE },
                    threshold := (strtod a).1 }) := by
  unfold xfence_parse_condition
  simp only [ha]
  rw [if_neg (by rintro (h | h); exact h hnum; exact absurd hpos (not_le.mpr h))]
  rcases hnext with hlen | ⟨h1, h2, h3, h4⟩
  · rw [if_pos hlen]
  · split_ifs <;> rfl

/-! ## The default action -/

/-- C16: when the argument `a` after a condition flag is a valid threshold
(read whole by `strtod`, value `>= 0`) and is the last argument or is
followed by an argument that is no action keyword, `parse_condition`
returns the index right after the threshold and a condition whose action
is `ACTION_RELEASE` with that threshold. The keywords are `release`,
`print` and `warp` in `xbarrier.c`; `xfence.c` has `jump` as well. -/
theorem default_action_release (strtod : String → ℚ × String) (argv : List String)
    (cur_arg : Nat) (a : String) (c : Condition)
    (ha : argv[cur_arg]? = some a) (hnum : (strtod a).2 = "") (hpos : 0 ≤ (strtod a).1)
    (hnext : argv.length ≤ cur_arg + 1 ∨
      (argv.getD (cur_arg + 1) "" ≠ "release" ∧ argv.getD (cur_arg + 1) "" ≠ "print" ∧
        argv.getD (cur_arg + 1) "" ≠ "warp")) :
    parse_condition strtod cur_arg argv c =
      .ok (cur_arg + 1, { action := { c.action with type := .ACTION_RELEASE },
                          threshold := (strtod a).1 }) ∧
    ((argv.length ≤ cur_arg + 1 ∨ argv.getD (cur_arg + 1) "" ≠ "jump") →
      xfence_parse_condition strtod cur_arg argv c =
        .ok (cur_arg + 1, { action := { c.action with type := .ACTION_RELEASE },
                            threshold := (strtod a).1 })) := by
  refine ⟨parse_condition_default strtod cur_arg argv c a ha hnum hpos hnext, ?_⟩
  intro hj
  apply xfence_parse_condition_default strtod cur_arg argv c a ha hnum hpos
  rcases hnext with hlen | ⟨h1, h2, h3⟩
  · exact Or.inl hlen
  · rcases hj with hlen | h4
    · exact Or.inl hlen
    · exact Or.inr ⟨h1, h2, h3, h4⟩

/-- C16 on `xbarrier +x -d 50` (end of the arguments) and on
`xbarrier -d 50 +x` (the next argument is a direction). -/
theorem default_action_release_witness :
    parse_condition example_strtod 3 ["xbarrier", "+x", "-d", "50"] unset =
      .ok (4, { action := plain .ACTION_RELEASE, threshold := 50 }) ∧
    parse_condition example_strtod 2 ["xbarrier", "-d", "50", "+x"] unset =
      .ok (3, { action := plain .ACTION_RELEASE, threshold := 50 }) := by
  have h1 := (default_action_release example_strtod ["xbarrier", "+x", "-d", "50"] 3 "50" unset
    (by simp) (by simp [example_strtod]) (by simp [example_strtod]) (Or.inl (by simp))).1
  have h2 := (default_action_release example_strtod ["xbarrier", "-d", "50", "+x"] 2 "50" unset
    (by simp) (by simp [example_strtod]) (by simp [example_strtod])
    (Or.inr (by simp))).1
  simp only [example_strtod] at h1 h2
  simp only [unset, plain] at h1 h2 ⊢
  exact ⟨by simpa using h1, by simpa using h2⟩

/-! ## Conditions that were never configured -/

/-- C17: a condition whose action is `ACTION_NONE`, the value the C
initialisers give to all four conditions (with threshold 0) and a value
`parse_condition` never stores, still has that action after any sequence of
events, and the calls `handle_barrier_hit` makes for it send nothing to the
X server and print nothing, in `xbarrier.c` and in `xfence.c`. When all
four actions are `ACTION_NONE`, a hit has no effect at all. -/
theorem unconfigured_condition_no_effect (g : Globals) (evs : List BarrierXEvent)
    (event : XIBarrierEvent) (now : ℚ) (s : CallSite)
    (hnone : (action_of g s).type = .ACTION_NONE) :
    (action_of (run g evs) s).type = .ACTION_NONE ∧
    effects (run g evs).barrier
      (calls_at s (handle_barrier_hit (run g evs) event now).calls) = [] ∧
    xfence_effects (run g evs).barrier
      (calls_at s (handle_barrier_hit (run g evs) event now).calls) = [] ∧
    ((∀ t : CallSite, (action_of g t).type = .ACTION_NONE) →
      effects (run g evs).barrier (handle_barrier_hit (run g evs) event now).calls = [] ∧
      xfence_effects (run g evs).barrier
        (handle_barrier_hit (run g evs) event now).calls = []) ∧
    (∀ t : CallSite, (action_of initial t).type = .ACTION_NONE) ∧
    (initial.distance.threshold = 0 ∧ initial.min_speed.threshold = 0 ∧
      initial.max_speed.threshold = 0 ∧ initial.doubletap.threshold = 0) ∧
    (∀ (strtod : String → ℚ × String) (k : Nat) (args : List String) (c0 : Condition)
      (n : Nat) (c1 : Condition),
      parse_condition strtod k args c0 = .ok (n, c1) → c1.action.type ≠ .ACTION_NONE) := by
  have hs : ∀ c ∈ calls_at s (handle_barrier_hit (run g evs) event now).calls,
      c.action.type = .ACTION_NONE := by
    intro c hc
    simp only [calls_at, List.mem_filter, decide_eq_true_eq] at hc
    rw [calls_action _ _ _ c hc.1, hc.2, action_of_run]
    exact hnone
  refine ⟨by rw [action_of_run]; exact hnone, (effects_eq_nil _ _ hs).1,
    (effects_eq_nil _ _ hs).2, ?_, ?_, ⟨rfl, rfl, rfl, rfl⟩, ?_⟩
  · intro hall
    apply effects_eq_nil
    intro c hc
    rw [calls_action _ _ _ c hc, action_of_run]
    exact hall c.site
  · intro t
    cases t <;> rfl
  · intro strtod k args c0 n c1 h
    exact (parse_condition_ok strtod k args c0 n c1 h).2.1

/-- C17 on the globals of start-up: the hit `(5,0)` makes the `min_speed`
call (its norm 5 exceeds the threshold 0) and the call has no effect. -/
theorem unconfigured_condition_no_effect_witness :
    (action_of initial .min_speed).type = .ACTION_NONE ∧
    applied .min_speed (handle_barrier_hit (run initial []) (push 5 0) 1).calls = true ∧
    effects (run initial []).barrier
      (calls_at .min_speed (handle_barrier_hit (run initial []) (push 5 0) 1).calls) = [] ∧
    effects (run initial []).barrier
      (handle_barrier_hit (run initial []) (push 5 0) 1).calls = [] := by
  have h := unconfigured_condition_no_effect initial [] (push 5 0) 1 .min_speed rfl
  refine ⟨rfl, ?_, h.2.1, (h.2.2.2.1 (fun t => by cases t <;> rfl)).1⟩
  rw [applied_min_speed]
  norm_num [sqrt_gt, push, run, initial]

/-! ## The effects of one hit -/

/-- C18: the requests and output of one `handle_barrier_hit` are, in this
order, those of the distance, `min_speed`, `max_speed` and double-tap
actions, each present exactly when the test of its own condition holds, and
each computed from the projected event. -/
theorem hit_effects_in_order (g : Globals) (event : XIBarrierEvent) (now : ℚ) :
    effects g.barrier (handle_barrier_hit g event now).calls =
      (if sqrt_gt ((g.distance.dx + event.dx) * (g.distance.dx + event.dx) +
            (g.distance.dy + event.dy) * (g.distance.dy + event.dy)) g.distance.threshold then
          do_action g.barrier g.distance.action (project_onto_barrier g.barrier event)
        else []) ++
      (if sqrt_gt (event.dx * event.dx + event.dy * event.dy) g.min_speed.threshold then
          do_action g.barrier g.min_speed.action (project_onto_barrier g.barrier event)
        else []) ++
      (if sqrt_lt (event.dx * event.dx + event.dy * event.dy) g.max_speed.threshold then
          do_action g.barrier g.max_speed.action (project_onto_barrier g.barrier event)
        else []) ++
      (if g.doubletap.timestamp_last_entered < g.doubletap.timestamp_last_left ∧
            now - g.doubletap.timestamp_last_entered ≤ g.doubletap.threshold then
          do_action g.barrier g.doubletap.action (project_onto_barrier g.barrier event)
        else []) := by
  rw [handle_barrier_hit_calls, effects_append, effects_append, effects_append]
  congr 1
  · congr 1
    · congr 1
      · split_ifs <;> simp [effects]
      · split_ifs <;> simp [effects]
    · split_ifs <;> simp [effects]
  · split_ifs <;> simp [effects]

/-! ## The double-tap condition -/

/-- C19: `handle_barrier_hit` calls `do_action(&doubletap.action, ...)` if
and only if, in the globals it starts from, `timestamp_last_entered` is
strictly less than `timestamp_last_left` and
`now - timestamp_last_entered <= doubletap.threshold`. -/
theorem doubletap_applied_iff (g : Globals) (event : XIBarrierEvent) (now : ℚ) :
    applied .doubletap (handle_barrier_hit g event now).calls = true ↔
      g.doubletap.timestamp_last_entered < g.doubletap.timestamp_last_left ∧
        now - g.doubletap.timestamp_last_entered ≤ g.doubletap.threshold := by
  rw [applied_doubletap, decide_eq_true_eq]

/-- C20: after `handle_barrier_hit`, `timestamp_last_entered` is the time
of the hit, whatever calls were made, and `timestamp_last_left` is as
before. -/
theorem hit_sets_last_entered (g : Globals) (event : XIBarrierEvent) (now : ℚ) :
    (handle_barrier_hit g event now).globals.doubletap.timestamp_last_entered = now ∧
    (handle_barrier_hit g event now).globals.doubletap.timestamp_last_left =
      g.doubletap.timestamp_last_left := by
  rw [handle_barrier_hit_globals]
  exact ⟨rfl, rfl⟩

/-! ## The loop of `set_options` has enough room -/

theorem read_bar_fuel (strtod : String → ℚ × String) (k : Nat) (argv : List String)
    (c : Condition) : read_bar strtod k argv c ≠ .error .out_of_fuel := by
  intro h
  unfold read_bar at h
  dsimp only at h
  repeat' split at h
  all_goals simp at h

theorem parse_condition_fuel (strtod : String → ℚ × String) (k : Nat) (argv : List String)
    (c : Condition) : parse_condition strtod k argv c ≠ .error .out_of_fuel := by
  intro h
  unfold parse_condition at h
  dsimp only at h
  repeat' split at h
  all_goals first | (exact read_bar_fuel strtod _ argv _ h) | simp at h

theorem scan_after_parse (strtod : String → ℚ × String) (argv : List String) (fuel k : Nat)
    (c : Condition) (G : Condition → Globals)
    (ih : ∀ (cur_arg : Nat) (g : Globals), argv.length ≤ cur_arg + fuel →
      scan strtod argv fuel cur_arg g ≠ .error .out_of_fuel)
    (hlen : argv.length ≤ k + fuel) :
    ((match parse_condition strtod k argv c with
      | .error f => .error f
      | .ok (n, c1) => scan strtod argv fuel n (G c1)) : Except Failure Globals) ≠
      .error .out_of_fuel := by
  cases hp : parse_condition strtod k argv c with
  | error f =>
    intro h
    simp only [Except.error.injEq] at h
    subst h
    exact parse_condition_fuel strtod k argv c hp
  | ok p =>
    obtain ⟨n, c1⟩ := p
    have hn := (parse_condition_ok strtod k argv c n c1 hp).2.2
    exact ih n _ (by omega)

/-- The steps of the loop never run out: every iteration moves `cur_arg`
forward. -/
theorem scan_fuel (strtod : String → ℚ × String) (argv : List String) (fuel : Nat) :
    ∀ (cur_arg : Nat) (g : Globals), argv.length ≤ cur_arg + fuel →
      scan strtod argv fuel cur_arg g ≠ .error .out_of_fuel := by
  induction fuel with
  | zero =>
    intro cur_arg g hlen h
    unfold scan at h
    rw [if_neg (by omega)] at h
    exact absurd h (by simp)
  | succ fuel ih =>
    intro cur_arg g hlen
    unfold scan
    cases ha : argv[cur_arg]? with
    | none => exact fun h => by cases h
    | some a =>
      dsimp only
      by_cases h1 : a = "-h"
      · rw [if_pos h1]
        exact fun h => by cases h
      rw [if_neg h1]
      by_cases h2 : a = "+x"
      · rw [if_pos h2]
        exact ih _ _ (by omega)
      rw [if_neg h2]
      by_cases h3 : a = "-x"
      · rw [if_pos h3]
        exact ih _ _ (by omega)
      rw [if_neg h3]
      by_cases h4 : a = "+y"
      · rw [if_pos h4]
        exact ih _ _ (by omega)
      rw [if_neg h4]
      by_cases h5 : a = "-y"
      · rw [if_pos h5]
        exact ih _ _ (by omega)
      rw [if_neg h5]
      by_cases h6 : a = "-d"
      · rw [if_pos h6]
        exact scan_after_parse strtod argv fuel _ _ _ ih (by omega)
      rw [if_neg h6]
      by_cases h7 : a = "-s"
      · rw [if_pos h7]
        exact scan_after_parse strtod argv fuel _ _ _ ih (by omega)
      rw [if_neg h7]
      by_cases h8 : a = "-S"
      · rw [if_pos h8]
        exact scan_after_parse strtod argv fuel _ _ _ ih (by omega)
      rw [if_neg h8]
      by_cases h9 : a = "-t"
      · rw [if_pos h9]
        exact scan_after_parse strtod argv fuel _ _ _ ih (by omega)
      rw [if_neg h9]
      split_ifs with hn hr
      · exact fun h => by cases h
      · exact fun h => by cases h
      · rw [not_not] at hn
        exact ih _ _ (by omega)

theorem set_options_fuel (strtod : String → ℚ × String) (argv : List String) (g0 : Globals) :
    set_options strtod argv g0 ≠ .error .out_of_fuel := by
  unfold set_options
  cases hs : scan strtod argv argv.length 1 g0 with
  | error f =>
    intro h
    simp only [Except.error.injEq] at h
    subst h
    exact scan_fuel strtod argv argv.length 1 g0 (by omega) hs
  | ok g =>
    dsimp only
    unfold final_checks
    split_ifs <;> exact fun h => by cases h
/-! ## The shape of the barrier accepted by `set_options` -/

/-- What `set_options` of `xbarrier.c` has established when it returns. -/
theorem set_options_ok (strtod : String → ℚ × String) (argv : List String) (g0 g : Globals)
    (h : set_options strtod argv g0 = .ok g) :
    scan strtod argv argv.length 1 g0 = .ok g ∧ g.barrier.directions ≠ 0 ∧
      ¬ (g.barrier.disp.x ≠ 0 ∧ g.barrier.disp.y ≠ 0) := by
  unfold set_options at h
  split at h
  · exact absurd h (by simp)
  · rename_i g1 hscan
    unfold final_checks at h
    split_ifs at h with hd hxy
    simp only [Except.ok.injEq] at h
    subst h
    exact ⟨hscan, hd, hxy⟩

/-- C11: when the arguments have been read to the end and the barrier they
give has `disp.x != 0` and `disp.y != 0`, `set_options` of `xbarrier.c`
ends in a configuration error (no direction, or a barrier that is not one
pixel thick) and does not return, so `main` never reaches the event loop.
When reading the arguments fails, `set_options` fails in the same way, so
in no case does it return with such a barrier; and the loop of the model is
never cut short. -/
theorem diagonal_barrier_rejected (strtod : String → ℚ × String) (argv : List String)
    (g0 g : Globals) (hscan : scan strtod argv argv.length 1 g0 = .ok g)
    (hx : g.barrier.disp.x ≠ 0) (hy : g.barrier.disp.y ≠ 0) :
    (set_options strtod argv g0 = .error .no_direction ∨
      set_options strtod argv g0 = .error .not_one_pixel_thick) ∧
    Failure.no_direction.configuration_error = true ∧
    Failure.not_one_pixel_thick.configuration_error = true ∧
    (∀ g1 : Globals, set_options strtod argv g0 ≠ .ok g1) ∧
    (∀ (args : List String) (f : Failure),
      scan strtod args args.length 1 g0 = .error f → set_options strtod args g0 = .error f) ∧
    (∀ args : List String, set_options strtod args g0 ≠ .error .out_of_fuel) := by
  have hset : set_options strtod argv g0 = .error .no_direction ∨
      set_options strtod argv g0 = .error .not_one_pixel_thick := by
    unfold set_options
    rw [hscan]
    unfold final_checks
    by_cases hd : g.barrier.directions = 0
    · left
      simp [hd]
    · right
      simp [hd, hx, hy]
  refine ⟨hset, rfl, rfl, ?_, ?_, fun args => set_options_fuel strtod args g0⟩
  · intro g1 h1
    rcases hset with h | h <;> rw [h] at h1 <;> exact absurd h1 (by simp)
  · intro args f hf
    unfold set_options
    rw [hf]

/-- C11 on `xbarrier 0 0 10 10 +x`: the arguments are read to the end, the
barrier runs from `(0,0)` to `(10,10)`, and `set_options` ends in the error
`Invalid coordinates (barrier must be one pixel thick)`. -/
theorem diagonal_barrier_rejected_witness :
    scan example_strtod ["xbarrier", "0", "0", "10", "10", "+x"] 6 1 initial =
      .ok example_diagonal ∧
    set_options example_strtod ["xbarrier", "0", "0", "10", "10", "+x"] initial =
      .error .not_one_pixel_thick := by
  have hscan : scan example_strtod ["xbarrier", "0", "0", "10", "10", "+x"]
      ["xbarrier", "0", "0", "10", "10", "+x"].length 1 initial = .ok example_diagonal := by
    simp [scan, coord_disp_y, coord_disp_x, coord_pos_y, coord_pos_x, example_strtod, initial,
      example_diagonal, BarrierPositiveX, Int.lor]
  have h := (diagonal_barrier_rejected example_strtod _ initial example_diagonal hscan
    (by norm_num [example_diagonal]) (by norm_num [example_diagonal])).1
  refine ⟨hscan, ?_⟩
  rcases h with h | h
  · rw [set_options, hscan] at h
    simp [final_checks, example_diagonal] at h
  · exact h

/-- C12 as stated fails: `xbarrier 5 5 5 5 +x` is accepted and its barrier
has `disp.x = 0` and `disp.y = 0`, not exactly one of them zero. -/
theorem point_barrier_accepted :
    set_options example_strtod ["xbarrier", "5", "5", "5", "5", "+x"] initial =
      .ok example_point ∧
    ¬ axis_aligned example_point.barrier.disp := by
  constructor
  · simp [set_options, final_checks, scan, coord_disp_y, coord_disp_x, coord_pos_y, coord_pos_x,
      example_strtod, initial, example_point, BarrierPositiveX, Int.lor]
  · simp [axis_aligned, example_point]

/-- C12, amended: the barrier of every argument list that `set_options` of
`xbarrier.c` accepts has `disp.x = 0` or `disp.y = 0`. -/
theorem accepted_barrier_not_diagonal (strtod : String → ℚ × String) (argv : List String)
    (g0 g : Globals) (h : set_options strtod argv g0 = .ok g) :
    g.barrier.disp.x = 0 ∨ g.barrier.disp.y = 0 := by
  have hxy := (set_options_ok strtod argv g0 g h).2.2
  by_cases hx : g.barrier.disp.x = 0
  · exact Or.inl hx
  · right
    by_contra hy
    exact hxy ⟨hx, hy⟩

/-- C12, amended, on `xbarrier 0 0 10 0 +x`: accepted, with `disp.y = 0`. -/
theorem accepted_barrier_not_diagonal_witness :
    set_options example_strtod ["xbarrier", "0", "0", "10", "0", "+x"] initial =
      .ok example_horizontal ∧
    (example_horizontal.barrier.disp.x = 0 ∨ example_horizontal.barrier.disp.y = 0) := by
  have h : set_options example_strtod ["xbarrier", "0", "0", "10", "0", "+x"] initial =
      .ok example_horizontal := by
    simp [set_options, final_checks, scan, coord_disp_y, coord_disp_x, coord_pos_y, coord_pos_x,
      example_strtod, initial, example_horizontal, BarrierPositiveX, Int.lor]
  exact ⟨h, accepted_barrier_not_diagonal example_strtod _ initial example_horizontal h⟩

/-- C14, at the failing input: `set_options` of `xfence.c` accepts
`xfence 0 0 10 10 +x`, whose barrier has `disp.x = 10` and `disp.y = 10`. -/
theorem xfence_diagonal_accepted :
    xfence_set_options example_strtod ["xfence", "0", "0", "10", "10", "+x"] initial =
      .ok example_diagonal ∧
    example_diagonal.barrier.disp.x ≠ 0 ∧ example_diagonal.barrier.disp.y ≠ 0 := by
  refine ⟨?_, ?_, ?_⟩
  · simp [xfence_set_options, xfence_read_barrier, xfence_directions, xfence_scan,
      example_strtod, initial, example_diagonal, BarrierPositiveX, Int.lor]
  · norm_num [example_diagonal]
  · norm_num [example_diagonal]

/-! ## The accumulator after a hit -/

/-- C21: after `handle_barrier_hit` the accumulator is the one before plus
the event's `(dx, dy)`, whether or not the distance call was made; two
globals with the same accumulator, whatever their thresholds, actions and
other fields, get the same accumulator from the same event. -/
theorem hit_accumulates (g : Globals) (event : XIBarrierEvent) (now : ℚ) :
    (handle_barrier_hit g event now).globals.distance.dx = g.distance.dx + event.dx ∧
    (handle_barrier_hit g event now).globals.distance.dy = g.distance.dy + event.dy ∧
    (∀ (g1 : Globals) (now1 : ℚ),
      g1.distance.dx = g.distance.dx → g1.distance.dy = g.distance.dy →
      (handle_barrier_hit g1 event now1).globals.distance.dx =
        (handle_barrier_hit g event now).globals.distance.dx ∧
      (handle_barrier_hit g1 event now1).globals.distance.dy =
        (handle_barrier_hit g event now).globals.distance.dy) := by
  refine ⟨by rw [handle_barrier_hit_globals], by rw [handle_barrier_hit_globals], ?_⟩
  intro g1 now1 hx hy
  rw [handle_barrier_hit_globals, handle_barrier_hit_globals]
  exact ⟨by rw [hx], by rw [hy]⟩

/-! ## The offset of `ACTION_JUMP` and the specification's `clamp_map` -/

theorem double_to_int_half_pixel : double_to_int (41 / 2) = 20 := by
  unfold double_to_int
  rw [if_pos (by norm_num), Int.floor_eq_iff]
  norm_num

theorem double_to_int_neg_500 : double_to_int (-500) = -500 := by
  unfold double_to_int
  rw [if_neg (by norm_num), Int.ceil_eq_iff]
  norm_num

theorem double_to_int_580 : double_to_int 580 = 580 := by
  unfold double_to_int
  rw [if_pos (by norm_num), Int.floor_eq_iff]
  norm_num

theorem double_to_int_zero : double_to_int 0 = 0 := by
  unfold double_to_int
  rw [if_pos (le_refl 0), Int.floor_eq_iff]
  norm_num

theorem double_to_int_579_half : double_to_int (1159 / 2) = 579 := by
  unfold double_to_int
  rw [if_pos (by norm_num), Int.floor_eq_iff]
  norm_num

/-- C22, at the failing input: on the barrier from `(100,0)` to `(100,500)`
with the target `jump 0 600 0 100`, a hit at `(100, 20.5)` gets the offset
`y_disp = -20` from the `ACTION_JUMP` case of `xfence.c`, where the
specification's formula gives `-20.5`; the pointer is warped to `(0, 580)`
instead of `(0, 579)`. -/
theorem jump_offset_truncated :
    jump_y_disp example_barrier example_jump half_pixel = -20 ∧
    spec_clamp_offset (half_pixel.root_y - example_barrier.pos.y) example_jump.bar_disp.y =
      -(41 / 2) ∧
    xfence_do_action example_barrier example_jump half_pixel = [.warp 0 580] ∧
    double_to_int (example_jump.bar_pos.y +
      spec_clamp_offset (half_pixel.root_y - example_barrier.pos.y) example_jump.bar_disp.y) =
      579 := by
  have hy : jump_y_disp example_barrier example_jump half_pixel = -20 := by
    simp only [jump_y_disp, example_barrier, example_jump, half_pixel]
    norm_num [double_to_int_half_pixel, double_to_int_neg_500, SIGNUM, MIN, abs]
  have hx : jump_x_disp example_barrier example_jump half_pixel = 0 := by
    simp only [jump_x_disp, example_barrier, example_jump, half_pixel]
    norm_num [double_to_int_zero, SIGNUM, MIN, abs]
  have hs : spec_clamp_offset (half_pixel.root_y - example_barrier.pos.y)
      example_jump.bar_disp.y = -(41 / 2) := by
    simp only [spec_clamp_offset, example_barrier, example_jump, half_pixel]
    norm_num [abs_of_nonneg, abs_of_neg, min_def]
  refine ⟨hy, hs, ?_, ?_⟩
  · simp only [xfence_do_action, jump_cursor_pos, hx, hy]
    norm_num [example_jump, double_to_int_zero, double_to_int_580]
  · rw [hs]
    norm_num [example_jump, double_to_int_579_half]

/-! ## The position the actions work on -/

/-- Every call made by `handle_barrier_hit` passes the projected event. -/
theorem calls_event (g : Globals) (ev : XIBarrierEvent) (now : ℚ) (c : Call)
    (hc : c ∈ (handle_barrier_hit g ev now).calls) :
    c.event = project_onto_barrier g.barrier ev := by
  rw [handle_barrier_hit_calls] at hc
  simp only [List.mem_append] at hc
  rcases hc with ((hc | hc) | hc) | hc <;>
    · split_ifs at hc
      · rw [List.mem_singleton] at hc
        rw [hc]
      · exact absurd hc (List.not_mem_nil c)

/-- C23: every call of `do_action` made by `handle_barrier_hit` receives the
event with the position as the projection left it, which is also what the
handler leaves in the event; on it `ACTION_PRINT` hands the projected
`root_x`, `root_y` to `printf` and `ACTION_WARP` computes its target from
the projected position. -/
theorem actions_use_projected_position (g : Globals) (event : XIBarrierEvent) (now : ℚ)
    (c : Call) (hc : c ∈ (handle_barrier_hit g event now).calls) :
    c.event = project_onto_barrier g.barrier event ∧
    (handle_barrier_hit g event now).event = project_onto_barrier g.barrier event ∧
    (c.action.type = .ACTION_PRINT →
      do_action g.barrier c.action c.event =
        [.print (project_onto_barrier g.barrier event).root_x
          (project_onto_barrier g.barrier event).root_y]) ∧
    (c.action.type = .ACTION_WARP →
      do_action g.barrier c.action c.event =
        [.warp
          (double_to_int
            (warp_cursor_pos g.barrier c.action (project_onto_barrier g.barrier event)).x)
          (double_to_int
            (warp_cursor_pos g.barrier c.action (project_onto_barrier g.barrier event)).y)]) := by
  have he := calls_event g event now c hc
  refine ⟨he, rfl, ?_, ?_⟩
  · intro ht
    simp only [do_action, ht, he]
  · intro ht
    simp only [do_action, ht, he]

/-- C23 on the barrier from `(100,0)` to `(100,500)` with `-d 0 print`: a
hit reported at `(99, 600)` is projected to `(100, 500)`, and the distance
action prints `100 500`. -/
theorem actions_use_projected_position_witness :
    (⟨.distance, plain .ACTION_PRINT, project_onto_barrier example_barrier off_line⟩ : Call) ∈
      (handle_barrier_hit example_print_warp off_line 1).calls ∧
    off_line.root_x = 99 ∧ off_line.root_y = 600 ∧
    do_action example_barrier (plain .ACTION_PRINT)
      (project_onto_barrier example_barrier off_line) = [.print 100 500] := by
  have hp : project_onto_barrier example_barrier off_line =
      { off_line with root_x := 100, root_y := 500 } := by
    simp [project_onto_barrier, project_vertical, project_horizontal, example_barrier, off_line,
      MAX, MIN]
    norm_num
  have hc : (⟨.distance, plain .ACTION_PRINT, project_onto_barrier example_barrier off_line⟩ :
      Call) ∈ (handle_barrier_hit example_print_warp off_line 1).calls := by
    rw [handle_barrier_hit_calls]
    simp [sqrt_gt, example_print_warp, off_line]
  have h := (actions_use_projected_position example_print_warp off_line 1 _ hc).2.2.1 rfl
  refine ⟨hc, rfl, rfl, ?_⟩
  have hb : example_print_warp.barrier = example_barrier := rfl
  rw [hb] at h
  simp only [] at h
  rw [h, hp]

/-! ## Two hits without a leave between them -/

theorem run_append (g : Globals) (l1 l2 : List BarrierXEvent) :
    run g (l1 ++ l2) = run (run g l1) l2 := by
  simp [run, List.foldl_append]

/-- The time of the last leave is at most any bound on the clock values
read so far. -/
theorem run_last_left_le (evs : List BarrierXEvent) (T : ℚ) :
    ∀ g : Globals, (∀ e ∈ evs, e.time ≤ T) → g.doubletap.timestamp_last_left ≤ T →
      (run g evs).doubletap.timestamp_last_left ≤ T := by
  induction evs with
  | nil =>
    intro g _ hg
    exact hg
  | cons e t ih =>
    intro g he hg
    have step : run g (e :: t) = run (handle_xevent g e).1 t := by simp [run]
    rw [step]
    apply ih _ (fun d hd => he d (List.mem_cons_of_mem e hd))
    have hle := he e (List.mem_cons_self e t)
    cases e with
    | XI_BarrierHit ev now =>
      simp only [handle_xevent, handle_barrier_hit_globals]
      exact hg
    | XI_BarrierLeave ev now =>
      simp only [handle_xevent, handle_barrier_leave]
      exact hle

/-- C24: start from globals whose `timestamp_last_left` is 0, as the C
initialiser leaves it, and let the clock values read by the handlers be
non-decreasing from 0 on (the clock counts seconds since the epoch). Then
right after any hit `timestamp_last_entered >= timestamp_last_left`, and a
hit that follows it directly, with no leave between, does not make the
double-tap call, whatever the threshold and the time. -/
theorem no_doubletap_without_leave (g : Globals) (evs : List BarrierXEvent)
    (event : XIBarrierEvent) (now : ℚ)
    (hleft : g.doubletap.timestamp_last_left = 0)
    (htimes : List.Pairwise (fun a b : ℚ => a ≤ b)
      (0 :: (evs.map BarrierXEvent.time ++ [now]))) :
    (run g (evs ++ [.XI_BarrierHit event now])).doubletap.timestamp_last_left ≤
      (run g (evs ++ [.XI_BarrierHit event now])).doubletap.timestamp_last_entered ∧
    (∀ (next : XIBarrierEvent) (later : ℚ),
      applied .doubletap (handle_barrier_hit
        (run g (evs ++ [.XI_BarrierHit event now])) next later).calls = false) := by
  rw [List.pairwise_cons, List.pairwise_append] at htimes
  obtain ⟨h0, -, -, hle⟩ := htimes
  have hnow : (0 : ℚ) ≤ now := h0 now (by simp)
  have hbound : ∀ e ∈ evs, e.time ≤ now := fun e he =>
    hle e.time (List.mem_map_of_mem _ he) now (List.mem_singleton_self now)
  have hl := run_last_left_le evs now g hbound (by rw [hleft]; exact hnow)
  have hrun : run g (evs ++ [.XI_BarrierHit event now]) =
      (handle_barrier_hit (run g evs) event now).globals := by
    rw [run_append]
    rfl
  have hinv : (run g (evs ++ [.XI_BarrierHit event now])).doubletap.timestamp_last_left ≤
      (run g (evs ++ [.XI_BarrierHit event now])).doubletap.timestamp_last_entered := by
    rw [hrun, handle_barrier_hit_globals]
    exact hl
  refine ⟨hinv, ?_⟩
  intro next later
  rw [applied_doubletap]
  exact decide_eq_false (fun hc => absurd hc.1 (not_lt.mpr hinv))

/-- C24 from the globals of start-up with `-t 0.5 print`: after a hit at 1,
a leave at 2 and a hit at 3 the invariant holds (3 >= 2), and a further hit
at 3.1, within the threshold, does not make the double-tap call. -/
theorem no_doubletap_without_leave_witness :
    example_doubletap.doubletap.timestamp_last_left = 0 ∧
    applied .doubletap (handle_barrier_hit
      (run example_doubletap
        ([.XI_BarrierHit (push 1 0) 1, .XI_BarrierLeave (push 0 0) 2] ++
          [.XI_BarrierHit (push 1 0) 3]))
      (push 1 0) (31 / 10)).calls = false :=
  ⟨rfl,
   (no_doubletap_without_leave example_doubletap
      [.XI_BarrierHit (push 1 0) 1, .XI_BarrierLeave (push 0 0) 2] (push 1 0) 3 rfl
      (by norm_num [BarrierXEvent.time])).2 (push 1 0) (31 / 10)⟩

/-! ## A warp from a point of the barrier -/

/-- A quotient `c / d` with `c` between 0 and `d` lies between 0 and 1. -/
theorem div_mem_unit (c d : ℚ) (hd : d ≠ 0) (h1 : min 0 d ≤ c) (h2 : c ≤ max 0 d) :
    0 ≤ c / d ∧ c / d ≤ 1 := by
  rcases lt_or_gt_of_ne hd with hneg | hpos
  · rw [min_eq_right hneg.le] at h1
    rw [max_eq_left hneg.le] at h2
    constructor
    · exact div_nonneg_of_nonpos h2 hneg.le
    · rw [div_le_iff_of_neg hneg, one_mul]
      exact h1
  · rw [min_eq_left hpos.le] at h1
    rw [max_eq_right hpos.le] at h2
    constructor
    · exact div_nonneg h1 hpos.le
    · rw [div_le_iff₀ hpos, one_mul]
      exact h2

/-- C25: for a barrier with exactly one of `disp.x`, `disp.y` zero and an
event whose position lies on the barrier segment, the `cursor_pos` computed
by the `ACTION_WARP` case is `target.pos + t * target.disp` for a ratio `t`
with `0 <= t <= 1`. -/
theorem warp_cursor_pos_on_target (b : Barrier) (a : Action) (event : XIBarrierEvent)
    (hb : axis_aligned b.disp) (hon : lies_on b.pos b.disp event.root_x event.root_y) :
    ∃ t : ℚ, 0 ≤ t ∧ t ≤ 1 ∧
      warp_cursor_pos b a event =
        { x := a.bar_pos.x + t * a.bar_disp.x, y := a.bar_pos.y + t * a.bar_disp.y } := by
  obtain ⟨⟨hx1, hx2⟩, hy1, hy2⟩ := hon
  refine ⟨(event.root_x - b.pos.x + (event.root_y - b.pos.y)) / (b.disp.x + b.disp.y),
    ?_, ?_, rfl⟩
  · rcases hb with ⟨h0, hne⟩ | ⟨hne, h0⟩
    · rw [h0, add_zero, min_self] at hx1
      rw [h0, add_zero, max_self] at hx2
      have hx : event.root_x = b.pos.x := le_antisymm hx2 hx1
      rw [hx, h0, sub_self, zero_add, zero_add]
      apply (div_mem_unit _ _ hne _ _).1
      · rw [← sub_le_sub_iff_right b.pos.y] at hy1
        rw [min_def] at hy1 ⊢
        split_ifs at hy1 ⊢ <;> linarith
      · rw [max_def] at hy2 ⊢
        split_ifs at hy2 ⊢ <;> linarith
    · rw [h0, add_zero, min_self] at hy1
      rw [h0, add_zero, max_self] at hy2
      have hy : event.root_y = b.pos.y := le_antisymm hy2 hy1
      rw [hy, h0, sub_self, add_zero, add_zero]
      apply (div_mem_unit _ _ hne _ _).1
      · rw [min_def] at hx1 ⊢
        split_ifs at hx1 ⊢ <;> linarith
      · rw [max_def] at hx2 ⊢
        split_ifs at hx2 ⊢ <;> linarith
  · rcases hb with ⟨h0, hne⟩ | ⟨hne, h0⟩
    · rw [h0, add_zero, min_self] at hx1
      rw [h0, add_zero, max_self] at hx2
      have hx : event.root_x = b.pos.x := le_antisymm hx2 hx1
      rw [hx, h0, sub_self, zero_add, zero_add]
      apply (div_mem_unit _ _ hne _ _).2
      · rw [min_def] at hy1 ⊢
        split_ifs at hy1 ⊢ <;> linarith
      · rw [max_def] at hy2 ⊢
        split_ifs at hy2 ⊢ <;> linarith
    · rw [h0, add_zero, min_self] at hy1
      rw [h0, add_zero, max_self] at hy2
      have hy : event.root_y = b.pos.y := le_antisymm hy2 hy1
      rw [hy, h0, sub_self, add_zero, add_zero]
      apply (div_mem_unit _ _ hne _ _).2
      · rw [min_def] at hx1 ⊢
        split_ifs at hx1 ⊢ <;> linarith
      · rw [max_def] at hx2 ⊢
        split_ifs at hx2 ⊢ <;> linarith

/-- C25 on the barrier from `(100,0)` to `(100,500)`, the target from
`(0,0)` to `(1000,0)` and a hit at `(100,20)`. -/
theorem warp_cursor_pos_on_target_witness :
    axis_aligned example_barrier.disp ∧
    lies_on example_barrier.pos example_barrier.disp (push 5 0).root_x (push 5 0).root_y ∧
    ∃ t : ℚ, 0 ≤ t ∧ t ≤ 1 ∧
      warp_cursor_pos example_barrier example_warp (push 5 0) =
        { x := example_warp.bar_pos.x + t * example_warp.bar_disp.x,
          y := example_warp.bar_pos.y + t * example_warp.bar_disp.y } := by
  have hb : axis_aligned example_barrier.disp := by simp [axis_aligned, example_barrier]
  have hon : lies_on example_barrier.pos example_barrier.disp (push 5 0).root_x
      (push 5 0).root_y := by
    norm_num [lies_on, example_barrier, push]
  exact ⟨hb, hon, warp_cursor_pos_on_target example_barrier example_warp (push 5 0) hb hon⟩

/-! ## Basic facts about the handlers in double arithmetic -/

theorem project_vertical_double_dx (m : DoubleOps) (b : Barrier) (ev : XIBarrierEvent) :
    (project_vertical_double m b ev).dx = ev.dx ∧
      (project_vertical_double m b ev).dy = ev.dy := by
  unfold project_vertical_double
  dsimp only
  split_ifs <;> exact ⟨rfl, rfl⟩

theorem project_horizontal_double_dx (m : DoubleOps) (b : Barrier) (ev : XIBarrierEvent) :
    (project_horizontal_double m b ev).dx = ev.dx ∧
      (project_horizontal_double m b ev).dy = ev.dy := by
  unfold project_horizontal_double
  dsimp only
  split_ifs <;> exact ⟨rfl, rfl⟩

theorem project_double_dx (m : DoubleOps) (b : Barrier) (ev : XIBarrierEvent) :
    (project_horizontal_double m b (project_vertical_double m b ev)).dx = ev.dx := by
  rw [(project_horizontal_double_dx m b _).1, (project_vertical_double_dx m b ev).1]

theorem project_double_dy (m : DoubleOps) (b : Barrier) (ev : XIBarrierEvent) :
    (project_horizontal_double m b (project_vertical_double m b ev)).dy = ev.dy := by
  rw [(project_horizontal_double_dx m b _).2, (project_vertical_double_dx m b ev).2]

/-- The globals after `handle_barrier_hit_double`. -/
theorem handle_barrier_hit_double_globals (m : DoubleOps) (g : Globals) (ev : XIBarrierEvent)
    (now : ℚ) :
    (handle_barrier_hit_double m g ev now).globals =
      { g with
        distance := { g.distance with
          dx := m.add g.distance.dx ev.dx, dy := m.add g.distance.dy ev.dy }
        doubletap := { g.doubletap with timestamp_last_entered := now } } := by
  simp only [handle_barrier_hit_double, project_double_dx, project_double_dy]

theorem applied_distance_double (m : DoubleOps) (g : Globals) (ev : XIBarrierEvent) (now : ℚ) :
    applied .distance (handle_barrier_hit_double m g ev now).calls =
      decide (g.distance.threshold <
        m.norm (m.add g.distance.dx ev.dx) (m.add g.distance.dy ev.dy)) := by
  simp only [handle_barrier_hit_double, project_double_dx, project_double_dy]
  unfold applied
  split_ifs <;> simp_all

theorem applied_min_speed_double (m : DoubleOps) (g : Globals) (ev : XIBarrierEvent) (now : ℚ) :
    applied .min_speed (handle_barrier_hit_double m g ev now).calls =
      decide (g.min_speed.threshold < m.norm ev.dx ev.dy) := by
  simp only [handle_barrier_hit_double]
  unfold applied
  split_ifs <;> simp_all

theorem applied_max_speed_double (m : DoubleOps) (g : Globals) (ev : XIBarrierEvent) (now : ℚ) :
    applied .max_speed (handle_barrier_hit_double m g ev now).calls =
      decide (m.norm ev.dx ev.dy < g.max_speed.threshold) := by
  simp only [handle_barrier_hit_double]
  unfold applied
  split_ifs <;> simp_all

/-- The globals after a sequence of hits in double arithmetic: the
accumulator has taken each displacement in turn, and the thresholds are as
before. -/
theorem run_hits_double_acc (m : DoubleOps) (hs : List (XIBarrierEvent × ℚ)) (g : Globals) :
    (run_hits_double m g hs).distance.dx = acc_dx m g.distance.dx hs ∧
    (run_hits_double m g hs).distance.dy = acc_dy m g.distance.dy hs ∧
    (run_hits_double m g hs).distance.threshold = g.distance.threshold ∧
    (run_hits_double m g hs).min_speed = g.min_speed ∧
    (run_hits_double m g hs).max_speed = g.max_speed := by
  induction hs generalizing g with
  | nil => simp [run_hits_double, acc_dx, acc_dy]
  | cons h t ih =>
    have step : run_hits_double m g (h :: t) =
        run_hits_double m (handle_barrier_hit_double m g h.1 h.2).globals t := by
      simp [run_hits_double]
    rw [step]
    obtain ⟨h1, h2, h3, h4, h5⟩ := ih (handle_barrier_hit_double m g h.1 h.2).globals
    rw [h1, h2, h3, h4, h5, handle_barrier_hit_double_globals]
    simp only [acc_dx, acc_dy, List.foldl_cons, and_self]

/-- Where the machine's `sqrt(x * x + y * y)` is exact, it is the Euclidean
norm of `(x, y)`. -/
theorem exact_norm_eq_sqrt (m : DoubleOps) (x y : ℚ) (h : exact_norm m x y) :
    ((m.norm x y : ℚ) : ℝ) = Real.sqrt ((x : ℝ) ^ 2 + (y : ℝ) ^ 2) := by
  obtain ⟨h0, hsq⟩ := h
  have h0' : (0 : ℝ) ≤ ((m.norm x y : ℚ) : ℝ) := by exact_mod_cast h0
  have hsq' : ((m.norm x y : ℚ) : ℝ) ^ 2 = (x : ℝ) ^ 2 + (y : ℝ) ^ 2 := by
    have : ((m.norm x y * m.norm x y : ℚ) : ℝ) = ((x * x + y * y : ℚ) : ℝ) := by rw [hsq]
    push_cast at this
    rw [sq, sq, sq]
    exact this
  rw [← hsq', Real.sqrt_sq h0']

theorem sqrt_gt_of_exact (m : DoubleOps) (x y t : ℚ) (h : exact_norm m x y) :
    sqrt_gt (x * x + y * y) t = decide (t < m.norm x y) := by
  have hiff : sqrt_gt (x * x + y * y) t = true ↔ t < m.norm x y := by
    rw [sqrt_gt_iff]
    have hs : (((x * x + y * y : ℚ)) : ℝ) = (x : ℝ) ^ 2 + (y : ℝ) ^ 2 := by
      push_cast
      ring
    rw [hs, ← exact_norm_eq_sqrt m x y h]
    exact_mod_cast Iff.rfl
  by_cases hc : t < m.norm x y
  · rw [hiff.mpr hc, decide_eq_true hc]
  · rw [decide_eq_false hc]
    exact Bool.eq_false_iff.mpr (fun hn => hc (hiff.mp hn))

theorem sqrt_lt_of_exact (m : DoubleOps) (x y t : ℚ) (h : exact_norm m x y) :
    sqrt_lt (x * x + y * y) t = decide (m.norm x y < t) := by
  have hiff : sqrt_lt (x * x + y * y) t = true ↔ m.norm x y < t := by
    rw [sqrt_lt_iff]
    have hs : (((x * x + y * y : ℚ)) : ℝ) = (x : ℝ) ^ 2 + (y : ℝ) ^ 2 := by
      push_cast
      ring
    rw [hs, ← exact_norm_eq_sqrt m x y h]
    exact_mod_cast Iff.rfl
  by_cases hc : m.norm x y < t
  · rw [hiff.mpr hc, decide_eq_true hc]
  · rw [decide_eq_false hc]
    exact Bool.eq_false_iff.mpr (fun hn => hc (hiff.mp hn))

theorem project_double_of_exact (m : DoubleOps) (b : Barrier) (ev : XIBarrierEvent)
    (hx : m.add b.pos.x b.disp.x = b.pos.x + b.disp.x)
    (hy : m.add b.pos.y b.disp.y = b.pos.y + b.disp.y) :
    project_horizontal_double m b (project_vertical_double m b ev) =
      project_onto_barrier b ev := by
  simp only [project_onto_barrier, project_horizontal_double, project_vertical_double,
    project_horizontal, project_vertical, hx, hy]

/-- Where the double operations are exact, `handle_barrier_hit_double` is
`handle_barrier_hit`: the sums and the difference the handler computes are
the exact ones and its two values of `sqrt(x * x + y * y)` are exact square
roots. -/
theorem handle_barrier_hit_double_of_exact (m : DoubleOps) (g : Globals)
    (ev : XIBarrierEvent) (now : ℚ)
    (hx : m.add g.barrier.pos.x g.barrier.disp.x = g.barrier.pos.x + g.barrier.disp.x)
    (hy : m.add g.barrier.pos.y g.barrier.disp.y = g.barrier.pos.y + g.barrier.disp.y)
    (hdx : m.add g.distance.dx ev.dx = g.distance.dx + ev.dx)
    (hdy : m.add g.distance.dy ev.dy = g.distance.dy + ev.dy)
    (hsub : m.sub now g.doubletap.timestamp_last_entered =
      now - g.doubletap.timestamp_last_entered)
    (hacc : exact_norm m (g.distance.dx + ev.dx) (g.distance.dy + ev.dy))
    (hev : exact_norm m ev.dx ev.dy) :
    handle_barrier_hit_double m g ev now = handle_barrier_hit g ev now := by
  simp only [handle_barrier_hit_double, handle_barrier_hit,
    project_double_of_exact m g.barrier ev hx hy,
    project_onto_barrier_dx, project_onto_barrier_dy, hdx, hdy, hsub,
    sqrt_gt_of_exact m _ _ _ hacc, sqrt_gt_of_exact m _ _ _ hev,
    sqrt_lt_of_exact m _ _ _ hev, gt_iff_lt, decide_eq_true_eq]

/-! ## The distance and speed conditions in double arithmetic -/

/-- C1 as stated fails: with threshold 50, nine hits of displacement `(5,0)`
and a tenth of displacement `(5, 2^-32)`, the accumulator is `(50, 2^-32)`,
whose Euclidean norm exceeds 50; the double `sqrt(2500 + 2^-64)` is 50, so
the tenth hit does not make the distance call. -/
theorem distance_not_applied_at_rounding :
    ieee_example.norm 50 (1 / 2 ^ 32) = 50 ∧
    applied .distance (handle_barrier_hit_double ieee_example
      (run_hits_double ieee_example example_distance (List.replicate 9 (push 5 0, 0)))
      (push 5 (1 / 2 ^ 32)) 0).calls = false ∧
    (example_distance.distance.threshold : ℝ) <
      Real.sqrt
        (((sum_dx (List.replicate 9 (push 5 0, 0)) + (push 5 (1 / 2 ^ 32)).dx : ℚ) : ℝ) ^ 2 +
          ((sum_dy (List.replicate 9 (push 5 0, 0)) + (push 5 (1 / 2 ^ 32)).dy : ℚ) : ℝ) ^ 2) := by
  refine ⟨by norm_num [ieee_example], ?_, ?_⟩
  · rw [applied_distance_double]
    obtain ⟨hx, hy, ht, -, -⟩ :=
      run_hits_double_acc ieee_example (List.replicate 9 (push 5 0, 0)) example_distance
    rw [hx, hy, ht]
    norm_num [acc_dx, acc_dy, List.replicate, ieee_example, example_distance, push]
  · rw [Real.lt_sqrt (by norm_num [example_distance])]
    norm_num [sum_dx, sum_dy, List.replicate, example_distance, push]

/-- C1, amended: from globals whose accumulator is `(0,0)` (start-up, or
right after `handle_barrier_leave`), and after any sequence `prev` of hits,
the hit `event` makes `handle_barrier_hit` call
`do_action(&distance.action, ...)` if and only if the double
`sqrt(dis_dx * dis_dx + dis_dy * dis_dy)`, computed from the accumulator
that has taken all displacements in turn, that of `event` included, is
strictly greater than `distance.threshold`. Where the sums are exact and
that double is the exact square root, this is the Euclidean norm of the sum
of the displacements. -/
theorem distance_applied_iff_double_norm_gt (m : DoubleOps) (g : Globals)
    (prev : List (XIBarrierEvent × ℚ)) (event : XIBarrierEvent) (now : ℚ)
    (hdx : g.distance.dx = 0) (hdy : g.distance.dy = 0) :
    (applied .distance
        (handle_barrier_hit_double m (run_hits_double m g prev) event now).calls = true ↔
      g.distance.threshold <
        m.norm (m.add (acc_dx m 0 prev) event.dx) (m.add (acc_dy m 0 prev) event.dy)) ∧
    (m.add (acc_dx m 0 prev) event.dx = sum_dx prev + event.dx →
      m.add (acc_dy m 0 prev) event.dy = sum_dy prev + event.dy →
      exact_norm m (sum_dx prev + event.dx) (sum_dy prev + event.dy) →
      (applied .distance
          (handle_barrier_hit_double m (run_hits_double m g prev) event now).calls = true ↔
        (g.distance.threshold : ℝ) <
          Real.sqrt (((sum_dx prev + event.dx : ℚ) : ℝ) ^ 2 +
            ((sum_dy prev + event.dy : ℚ) : ℝ) ^ 2))) := by
  obtain ⟨hx, hy, ht, -, -⟩ := run_hits_double_acc m prev g
  have h1 : applied .distance
      (handle_barrier_hit_double m (run_hits_double m g prev) event now).calls = true ↔
      g.distance.threshold <
        m.norm (m.add (acc_dx m 0 prev) event.dx) (m.add (acc_dy m 0 prev) event.dy) := by
    rw [applied_distance_double, hx, hy, ht, hdx, hdy, decide_eq_true_eq]
  refine ⟨h1, ?_⟩
  intro hsx hsy hexact
  rw [h1, hsx, hsy, ← exact_norm_eq_sqrt m _ _ hexact]
  exact_mod_cast Iff.rfl

/-- C1, amended, on the scenario of the specification: threshold 50 and
hits of displacement `(5,0)` with no leave. The 10th hit (the double norm
is 50) does not make the distance call, the 11th (55) does. -/
theorem distance_applied_iff_double_norm_gt_witness :
    example_distance.distance.dx = 0 ∧ example_distance.distance.dy = 0 ∧
    applied .distance (handle_barrier_hit_double ieee_example
      (run_hits_double ieee_example example_distance (List.replicate 9 (push 5 0, 0)))
      (push 5 0) 0).calls = false ∧
    applied .distance (handle_barrier_hit_double ieee_example
      (run_hits_double ieee_example example_distance (List.replicate 10 (push 5 0, 0)))
      (push 5 0) 0).calls = true := by
  refine ⟨rfl, rfl, ?_, ?_⟩
  · rw [Bool.eq_false_iff, Ne,
      (distance_applied_iff_double_norm_gt ieee_example example_distance _ (push 5 0) 0
        rfl rfl).1]
    norm_num [acc_dx, acc_dy, List.replicate, ieee_example, example_distance, push]
  · rw [(distance_applied_iff_double_norm_gt ieee_example example_distance _ (push 5 0) 0
        rfl rfl).1]
    norm_num [acc_dx, acc_dy, List.replicate, ieee_example, example_distance, push]

/-- C3 as stated fails: with `-S 5` a hit of displacement `(5, 2^-32)` has
a Euclidean norm above 5, but the double `sqrt(25 + 2^-64)` is 5 and the
`min_speed` call is not made. -/
theorem min_speed_not_applied_at_rounding :
    ieee_example.norm 5 (1 / 2 ^ 32) = 5 ∧
    applied .min_speed
      (handle_barrier_hit_double ieee_example example_min_speed (push 5 (1 / 2 ^ 32)) 0).calls =
      false ∧
    (example_min_speed.min_speed.threshold : ℝ) <
      Real.sqrt ((((push 5 (1 / 2 ^ 32)).dx : ℚ) : ℝ) ^ 2 +
        (((push 5 (1 / 2 ^ 32)).dy : ℚ) : ℝ) ^ 2) := by
  refine ⟨by norm_num [ieee_example], ?_, ?_⟩
  · rw [applied_min_speed_double]
    norm_num [ieee_example, example_min_speed, push]
  · rw [Real.lt_sqrt (by norm_num [example_min_speed])]
    norm_num [example_min_speed, push]

/-- C3, amended: `handle_barrier_hit` calls
`do_action(&min_speed.action, ...)` if and only if the double
`sqrt(dx * dx + dy * dy)` of the event's own `(dx, dy)` is strictly greater
than `min_speed.threshold`, whatever the rest of the globals. Where that
double is the exact square root, this is the Euclidean norm of `(dx, dy)`. -/
theorem min_speed_applied_iff_double_norm_gt (m : DoubleOps) (g : Globals)
    (event : XIBarrierEvent) (now : ℚ) :
    (applied .min_speed (handle_barrier_hit_double m g event now).calls = true ↔
      g.min_speed.threshold < m.norm event.dx event.dy) ∧
    (exact_norm m event.dx event.dy →
      (applied .min_speed (handle_barrier_hit_double m g event now).calls = true ↔
        (g.min_speed.threshold : ℝ) <
          Real.sqrt ((event.dx : ℝ) ^ 2 + (event.dy : ℝ) ^ 2))) := by
  have h1 : applied .min_speed (handle_barrier_hit_double m g event now).calls = true ↔
      g.min_speed.threshold < m.norm event.dx event.dy := by
    rw [applied_min_speed_double, decide_eq_true_eq]
  refine ⟨h1, ?_⟩
  intro hexact
  rw [h1, ← exact_norm_eq_sqrt m _ _ hexact]
  exact_mod_cast Iff.rfl

/-- C4 as stated fails: with `-s 1.4142135623730951` a hit of displacement
`(1,1)` has a Euclidean norm, the square root of 2, below the threshold,
but the double `sqrt(2)` is the threshold itself and the `max_speed` call
is not made. -/
theorem max_speed_not_applied_at_rounding :
    ieee_example.norm 1 1 = example_max_speed.max_speed.threshold ∧
    applied .max_speed
      (handle_barrier_hit_double ieee_example example_max_speed (push 1 1) 0).calls = false ∧
    Real.sqrt ((((push 1 1).dx : ℚ) : ℝ) ^ 2 + (((push 1 1).dy : ℚ) : ℝ) ^ 2) <
      (example_max_speed.max_speed.threshold : ℝ) := by
  refine ⟨by norm_num [ieee_example, example_max_speed], ?_, ?_⟩
  · rw [applied_max_speed_double]
    norm_num [ieee_example, example_max_speed, push]
  · rw [Real.sqrt_lt' (by norm_num [example_max_speed])]
    norm_num [example_max_speed, push]

/-- C4, amended: `handle_barrier_hit` calls
`do_action(&max_speed.action, ...)` if and only if the double
`sqrt(dx * dx + dy * dy)` of the event's own `(dx, dy)` is strictly less
than `max_speed.threshold`. Where that double is the exact square root,
this is the Euclidean norm of `(dx, dy)`. -/
theorem max_speed_applied_iff_double_norm_lt (m : DoubleOps) (g : Globals)
    (event : XIBarrierEvent) (now : ℚ) :
    (applied .max_speed (handle_barrier_hit_double m g event now).calls = true ↔
      m.norm event.dx event.dy < g.max_speed.threshold) ∧
    (exact_norm m event.dx event.dy →
      (applied .max_speed (handle_barrier_hit_double m g event now).calls = true ↔
        Real.sqrt ((event.dx : ℝ) ^ 2 + (event.dy : ℝ) ^ 2) <
          (g.max_speed.threshold : ℝ))) := by
  have h1 : applied .max_speed (handle_barrier_hit_double m g event now).calls = true ↔
      m.norm event.dx event.dy < g.max_speed.threshold := by
    rw [applied_max_speed_double, decide_eq_true_eq]
  refine ⟨h1, ?_⟩
  intro hexact
  rw [h1, ← exact_norm_eq_sqrt m _ _ hexact]
  exact_mod_cast Iff.rfl

/-- C3, amended, on `-S 5`: a hit of displacement `(3,4)`, whose double norm
5 is exact, does not make the `min_speed` call, and a hit of displacement
`(6,0)` does. -/
theorem min_speed_applied_iff_double_norm_gt_witness :
    exact_norm ieee_example (push 3 4).dx (push 3 4).dy ∧
    ¬ ((example_min_speed.min_speed.threshold : ℝ) <
      Real.sqrt (((push 3 4).dx : ℝ) ^ 2 + ((push 3 4).dy : ℝ) ^ 2)) ∧
    applied .min_speed
      (handle_barrier_hit_double ieee_example example_min_speed (push 3 4) 0).calls = false ∧
    applied .min_speed
      (handle_barrier_hit_double ieee_example example_min_speed (push 6 0) 0).calls = true := by
  have hex : exact_norm ieee_example (push 3 4).dx (push 3 4).dy := by
    norm_num [exact_norm, ieee_example, push]
  have h34 : ¬ (example_min_speed.min_speed.threshold <
      ieee_example.norm (push 3 4).dx (push 3 4).dy) := by
    norm_num [ieee_example, example_min_speed, push]
  have hno : ¬ (applied .min_speed
      (handle_barrier_hit_double ieee_example example_min_speed (push 3 4) 0).calls = true) :=
    fun h => h34 ((min_speed_applied_iff_double_norm_gt ieee_example example_min_speed
      (push 3 4) 0).1.mp h)
  refine ⟨hex, ?_, Bool.eq_false_iff.mpr hno, ?_⟩
  · exact fun h => hno ((min_speed_applied_iff_double_norm_gt ieee_example example_min_speed
      (push 3 4) 0).2 hex |>.mpr h)
  · rw [(min_speed_applied_iff_double_norm_gt ieee_example example_min_speed (push 6 0) 0).1]
    norm_num [ieee_example, example_min_speed, push]

/-- C4, amended, on `-s 1.4142135623730951`: a hit of displacement `(1,0)`,
whose double norm 1 is exact, makes the `max_speed` call, and a hit of
displacement `(3,4)` does not. -/
theorem max_speed_applied_iff_double_norm_lt_witness :
    exact_norm ieee_example (push 1 0).dx (push 1 0).dy ∧
    Real.sqrt (((push 1 0).dx : ℝ) ^ 2 + ((push 1 0).dy : ℝ) ^ 2) <
      (example_max_speed.max_speed.threshold : ℝ) ∧
    applied .max_speed
      (handle_barrier_hit_double ieee_example example_max_speed (push 1 0) 0).calls = true ∧
    applied .max_speed
      (handle_barrier_hit_double ieee_example example_max_speed (push 3 4) 0).calls = false := by
  have hex : exact_norm ieee_example (push 1 0).dx (push 1 0).dy := by
    norm_num [exact_norm, ieee_example, push]
  have h10 : applied .max_speed
      (handle_barrier_hit_double ieee_example example_max_speed (push 1 0) 0).calls = true := by
    rw [(max_speed_applied_iff_double_norm_lt ieee_example example_max_speed (push 1 0) 0).1]
    norm_num [ieee_example, example_max_speed, push]
  refine ⟨hex, ?_, h10, ?_⟩
  · exact ((max_speed_applied_iff_double_norm_lt ieee_example example_max_speed
      (push 1 0) 0).2 hex).mp h10
  · rw [Bool.eq_false_iff, Ne,
      (max_speed_applied_iff_double_norm_lt ieee_example example_max_speed (push 3 4) 0).1]
    norm_num [ieee_example, example_max_speed, push]

/-! ## The divisor of `ACTION_WARP` -/

end XBarrier
